import Mathlib

/-!
Verification development for the MTG Arena log extraction and
match-reconstruction pipeline (`scripts/arena_log_parser.py` and
`scripts/arena_watcher.py`).

The Python code is shallowly embedded: JSON values are an inductive type,
lines are lists of characters, the stateful reconstruction loop is a fold
over blocks, and the live tailing loop is a step function over a sequence
of file snapshots.  Points where the Python code would raise on
pathologically-shaped data (e.g. calling `.get` on a non-dict) are
totalised to a skip/default and annotated at the definition.
-/

namespace ArenaLog

/-- Lines of log text, as character lists (Python `str`, per code point). -/
abbrev Line := List Char

/-- The opening curly brace character. -/
def lcub : Char := Char.ofNat 123

/-- The closing curly brace character. -/
def rcub : Char := Char.ofNat 125

/-- Python `str.isspace` for the characters `str.strip` removes. -/
def isSpaceChar (c : Char) : Bool :=
  c = ' ' || c = '\t' || c = '\n' || c = '\r' || c = '\x0b' || c = '\x0c'

/-- Python `str.strip()`: drop whitespace from both ends. -/
def pyStrip (l : Line) : Line :=
  ((l.dropWhile isSpaceChar).reverse.dropWhile isSpaceChar).reverse

/-- Python `str.startswith`: `pre` is an initial segment of `l`. -/
def lineStarts : Line → Line → Bool
  | [], _ => true
  | _ :: _, [] => false
  | p :: ps, c :: cs => p = c && lineStarts ps cs

/-- Whether `pat` occurs as a contiguous substring of `l` (Python `in`). -/
def containsSub (l pat : Line) : Bool :=
  match l with
  | [] => lineStarts pat []
  | _ :: rest => lineStarts pat l || containsSub rest pat

/-- Count occurrences of a character in a line. -/
def countChar (c : Char) (l : Line) : Nat :=
  l.foldl (fun n d => if d = c then n + 1 else n) 0

/-- Python `str.lower()` restricted to ASCII, as used on format labels. -/
def lowerLine (l : Line) : Line := l.map Char.toLower

/-- JSON values as recovered by `json.loads`.  Numbers are restricted to
integers: the Arena fields the parser reads (`turnNumber`, `grpId`,
`teamId`, card ids) are integral, and no claim depends on floats. -/
inductive Json where
  | null : Json
  | bool : Bool → Json
  | num : Int → Json
  | str : String → Json
  | arr : List Json → Json
  | obj : List (String × Json) → Json
deriving Repr

mutual

/-- Python `==` on JSON values (structural; dict comparison is modelled as
order-sensitive, which agrees with Python on all values the claims use). -/
def jsonEq : Json → Json → Bool
  | .null, .null => true
  | .bool a, .bool b => a == b
  | .num a, .num b => a == b
  | .str a, .str b => a == b
  | .arr a, .arr b => jsonEqL a b
  | .obj a, .obj b => jsonEqO a b
  | _, _ => false

/-- Elementwise `jsonEq` on lists. -/
def jsonEqL : List Json → List Json → Bool
  | [], [] => true
  | a :: as, b :: bs => jsonEq a b && jsonEqL as bs
  | _, _ => false

/-- Pairwise `jsonEq` on object fields. -/
def jsonEqO : List (String × Json) → List (String × Json) → Bool
  | [], [] => true
  | (k, v) :: as, (k2, v2) :: bs => k == k2 && jsonEq v v2 && jsonEqO as bs
  | _, _ => false

end

/-- Python truthiness of a JSON value. -/
def truthy : Json → Bool
  | .null => false
  | .bool b => b
  | .num n => n != 0
  | .str s => s.length != 0
  | .arr l => !l.isEmpty
  | .obj l => !l.isEmpty

/-- Python truthiness of an optional value (`None` is falsy). -/
def truthyOpt : Option Json → Bool
  | some v => truthy v
  | none => false

/-- First binding of a key in an object's field list. -/
def objLookup : List (String × Json) → String → Option Json
  | [], _ => none
  | (k, v) :: rest, key => if k = key then some v else objLookup rest key

/-- Python `dict.get(k)` without default.  On a non-dict the Python code
would raise `AttributeError`; the model returns `none` there. -/
def pyGet : Json → String → Option Json
  | .obj fields, k => objLookup fields k
  | _, _ => none

/-- Python `dict.get(k, d)`. -/
def pyGetD (j : Json) (k : String) (d : Json) : Json :=
  (pyGet j k).getD d

/-- Python `dict.get(k)` where a stored JSON `null` and a missing key both
yield Python `None` (used for `winningTeamId`, `teamId`, `matchId`). -/
def pyGetN (j : Json) (k : String) : Option Json :=
  match pyGet j k with
  | some .null => none
  | o => o

/-- Python `k in d` for a dict. -/
def hasKey (j : Json) (k : String) : Bool :=
  (pyGet j k).isSome

/-- Python `d[k] = v`: replace the first binding in place, else append. -/
def objSetFields : List (String × Json) → String → Json → List (String × Json)
  | [], k, v => [(k, v)]
  | (k0, v0) :: rest, k, v =>
    if k0 = k then (k0, v) :: rest else (k0, v0) :: objSetFields rest k v

/-- Python `d[k] = v` on a JSON object (identity on non-objects). -/
def objSet (j : Json) (k : String) (v : Json) : Json :=
  match j with
  | .obj fields => .obj (objSetFields fields k v)
  | other => other

/-- Python iteration over a JSON list.  Non-lists are modelled as empty
iteration (Python would iterate keys of a dict or raise). -/
def asArr : Json → List Json
  | .arr l => l
  | _ => []

/-- Python `pat in s` for a JSON string field; `false` on non-strings
(Python would raise `TypeError` there). -/
def jsonStrContains (j : Json) (pat : String) : Bool :=
  match j with
  | .str s => containsSub s.toList pat.toList
  | _ => false

mutual

/-- Python `repr` of a JSON-derived value (`str` of a dict/list). -/
def pyRepr : Json → String
  | .null => "None"
  | .bool b => if b then "True" else "False"
  | .num n => toString n
  | .str s => "'" ++ s ++ "'"
  | .arr l => "[" ++ pyReprL l ++ "]"
  | .obj fields => String.mk [lcub] ++ pyReprO fields ++ String.mk [rcub]

/-- Comma-joined `repr`s of list elements. -/
def pyReprL : List Json → String
  | [] => ""
  | [x] => pyRepr x
  | x :: rest => pyRepr x ++ ", " ++ pyReprL rest

/-- Comma-joined `repr`s of dict entries. -/
def pyReprO : List (String × Json) → String
  | [] => ""
  | [(k, v)] => "'" ++ k ++ "': " ++ pyRepr v
  | (k, v) :: rest => "'" ++ k ++ "': " ++ pyRepr v ++ ", " ++ pyReprO rest

end

/-- Python `str(x)`: the string contents for strings, `repr` otherwise. -/
def pyStr : Json → String
  | .str s => s
  | other => pyRepr other

/-- JSON string escaping as done by `json.dumps` (the escapes needed by the
characters the pipeline stores; other control characters do not occur). -/
def dumpEscape (c : Char) : List Char :=
  if c = '"' then ['\\', '"']
  else if c = '\\' then ['\\', '\\']
  else if c = '\n' then ['\\', 'n']
  else if c = '\t' then ['\\', 't']
  else if c = '\r' then ['\\', 'r']
  else [c]

/-- `json.dumps` of a string literal. -/
def dumpStr (s : String) : String :=
  "\"" ++ String.mk (s.toList.flatMap dumpEscape) ++ "\""

mutual

/-- `json.dumps` with the default separators `", "` and `": "`. -/
def json_dumps : Json → String
  | .null => "null"
  | .bool b => if b then "true" else "false"
  | .num n => toString n
  | .str s => dumpStr s
  | .arr l => "[" ++ dumpsL l ++ "]"
  | .obj fields => String.mk [lcub] ++ dumpsO fields ++ String.mk [rcub]

/-- Comma-joined dumps of list elements. -/
def dumpsL : List Json → String
  | [] => ""
  | [x] => json_dumps x
  | x :: rest => json_dumps x ++ ", " ++ dumpsL rest

/-- Comma-joined dumps of dict entries. -/
def dumpsO : List (String × Json) → String
  | [] => ""
  | [(k, v)] => dumpStr k ++ ": " ++ json_dumps v
  | (k, v) :: rest => dumpStr k ++ ": " ++ json_dumps v ++ ", " ++ dumpsO rest

end

/-! ### A model of `json.loads`

Fuel-bounded recursive-descent parser for the JSON subset appearing in
Arena logs (objects, arrays, strings with simple escapes, integers,
booleans, null).  `\u` escapes and floats are not produced by the fields
the pipeline reads and make the parse fail in the model. -/

/-- Skip JSON whitespace. -/
def skipWs : Line → Line
  | c :: rest =>
    if c = ' ' || c = '\t' || c = '\n' || c = '\r' then skipWs rest else c :: rest
  | [] => []

/-- Match a literal character sequence, returning the remainder. -/
def expectLit (lit : Line) (cs : Line) : Option Line :=
  if lineStarts lit cs then some (cs.drop lit.length) else none

/-- Parse the body of a JSON string literal after the opening quote. -/
def parseStrChars : Line → Option (List Char × Line)
  | [] => none
  | c :: rest =>
    if c = '"' then some ([], rest)
    else if c = '\\' then
      match rest with
      | [] => none
      | e :: rest2 =>
        let dec : Option Char :=
          if e = '"' then some '"'
          else if e = '\\' then some '\\'
          else if e = '/' then some '/'
          else if e = 'n' then some '\n'
          else if e = 't' then some '\t'
          else if e = 'r' then some '\r'
          else if e = 'b' then some (Char.ofNat 8)
          else if e = 'f' then some (Char.ofNat 12)
          else none
        match dec with
        | some d =>
          match parseStrChars rest2 with
          | some (cs2, rem) => some (d :: cs2, rem)
          | none => none
        | none => none
    else
      match parseStrChars rest with
      | some (cs2, rem) => some (c :: cs2, rem)
      | none => none

/-- Digits to a natural number. -/
def digitsToNat (ds : List Char) : Nat :=
  ds.foldl (fun n c => 10 * n + (c.toNat - 48)) 0

/-- Parse an integer literal (optional minus sign); floats fail. -/
def parseNum (cs : Line) : Option (Json × Line) :=
  let core := fun (l : Line) (neg : Bool) =>
    let ds := l.takeWhile Char.isDigit
    if ds.isEmpty then none
    else
      let rest := l.dropWhile Char.isDigit
      match rest with
      | c :: _ =>
        if c = '.' || c = 'e' || c = 'E' then none
        else some (Json.num (if neg then -(digitsToNat ds : Int) else (digitsToNat ds : Int)), rest)
      | [] => some (Json.num (if neg then -(digitsToNat ds : Int) else (digitsToNat ds : Int)), [])
  match cs with
  | '-' :: rest => core rest true
  | _ => core cs false

mutual

/-- Parse one JSON value (fuel-bounded). -/
def parseVal : Nat → Line → Option (Json × Line)
  | 0, _ => none
  | fuel + 1, cs =>
    match skipWs cs with
    | [] => none
    | c :: rest =>
      if c = lcub then
        match skipWs rest with
        | c2 :: rest2 =>
          if c2 = rcub then some (.obj [], rest2)
          else parseMembers fuel (c2 :: rest2) []
        | [] => none
      else if c = '[' then
        match skipWs rest with
        | c2 :: rest2 =>
          if c2 = ']' then some (.arr [], rest2)
          else parseItems fuel (c2 :: rest2) []
        | [] => none
      else if c = '"' then
        match parseStrChars rest with
        | some (cs2, rem) => some (.str (String.mk cs2), rem)
        | none => none
      else if c = 't' then
        (expectLit "rue".toList rest).map (fun rem => (.bool true, rem))
      else if c = 'f' then
        (expectLit "alse".toList rest).map (fun rem => (.bool false, rem))
      else if c = 'n' then
        (expectLit "ull".toList rest).map (fun rem => (.null, rem))
      else parseNum (c :: rest)

/-- Parse object members; duplicate keys are overwritten in place, Python
dicts keeping the last value. -/
def parseMembers : Nat → Line → List (String × Json) → Option (Json × Line)
  | 0, _, _ => none
  | fuel + 1, cs, acc =>
    match skipWs cs with
    | c :: rest =>
      if c = '"' then
        match parseStrChars rest with
        | some (kcs, rem) =>
          (match skipWs rem with
           | c2 :: rem2 =>
             if c2 = ':' then
               match parseVal fuel rem2 with
               | some (v, rem3) =>
                 let acc2 := objSetFields acc (String.mk kcs) v
                 (match skipWs rem3 with
                  | c3 :: rem4 =>
                    if c3 = ',' then parseMembers fuel rem4 acc2
                    else if c3 = rcub then some (.obj acc2, rem4)
                    else none
                  | [] => none)
               | none => none
             else none
           | [] => none)
        | none => none
      else none
    | [] => none

/-- Parse array items. -/
def parseItems : Nat → Line → List Json → Option (Json × Line)
  | 0, _, _ => none
  | fuel + 1, cs, acc =>
    match parseVal fuel cs with
    | some (v, rem) =>
      (match skipWs rem with
       | c :: rem2 =>
         if c = ',' then parseItems fuel rem2 (acc ++ [v])
         else if c = ']' then some (.arr (acc ++ [v]), rem2)
         else none
       | [] => none)
    | none => none

end

/-- `json.loads`: parse a complete JSON document; trailing non-whitespace
text is an error, as in Python. -/
def json_loads (l : Line) : Option Json :=
  match parseVal (l.length + 2) l with
  | some (v, rem) => if skipWs rem = [] then some v else none
  | none => none

/-! ### The three trigger regexes of `extract_json_blocks`

Each Python `re.search` is modelled by a leftmost scan over start
positions, with explicit greedy backtracking where a character class
overlaps its follower (`[\d/: APM]+:` and `\S+:`). -/

/-- `\w` (ASCII, as used on Arena method and event names). -/
def isWordChar (c : Char) : Bool := c.isAlphanum || c = '_'

/-- The `[UnityCrossThreadLogger]` literal. -/
def litUCTL : Line := "[UnityCrossThreadLogger]".toList

/-- Try `\[UnityCrossThreadLogger\]==> (\w+)\s+(\{.*)` at one position;
returns (method, text from the opening brace to end of line). -/
def tryArrowOut (s : Line) : Option (String × Line) :=
  match expectLit "[UnityCrossThreadLogger]==> ".toList s with
  | none => none
  | some s1 =>
    let w := s1.takeWhile isWordChar
    if w.isEmpty then none
    else
      let s2 := s1.dropWhile isWordChar
      if (s2.takeWhile isSpaceChar).isEmpty then none
      else
        match s2.dropWhile isSpaceChar with
        | c :: rest => if c = lcub then some (String.mk w, c :: rest) else none
        | [] => none

/-- `re.search` for the outbound-call pattern. -/
def searchArrowOut : Line → Option (String × Line)
  | [] => none
  | c :: rest =>
    match tryArrowOut (c :: rest) with
    | some r => some r
    | none => searchArrowOut rest

/-- The timestamp character class `[\d/: APM]`. -/
def tsClass (c : Char) : Bool :=
  c.isDigit || c = '/' || c = ':' || c = ' ' || c = 'A' || c = 'P' || c = 'M'

/-- `\s+(\w+)` at the end of the match-event pattern. -/
def wordTail (s : Line) : Option String :=
  if (s.takeWhile isSpaceChar).isEmpty then none
  else
    let s1 := s.dropWhile isSpaceChar
    let w := s1.takeWhile isWordChar
    if w.isEmpty then none else some (String.mk w)

/-- Greedy `\S+:` with backtracking (run lengths `k, k-1, …, 1`), then
`\s+(\w+)`. -/
def tryNSC (s2 : Line) : Nat → Option String
  | 0 => none
  | k + 1 =>
    let here :=
      match s2.drop (k + 1) with
      | c :: rest => if c = ':' then wordTail rest else none
      | [] => none
    match here with
    | some w => some w
    | none => tryNSC s2 k

/-- `\s+Match to \S+:\s+(\w+)` after the timestamp colon. -/
def tryMERest (s : Line) : Option String :=
  if (s.takeWhile isSpaceChar).isEmpty then none
  else
    match expectLit "Match to ".toList (s.dropWhile isSpaceChar) with
    | none => none
    | some s2 => tryNSC s2 (s2.takeWhile (fun c => !isSpaceChar c)).length

/-- Greedy `[\d/: APM]+:` with backtracking, then the rest of the
match-event pattern. -/
def tryClassColon (s1 : Line) : Nat → Option String
  | 0 => none
  | k + 1 =>
    let here :=
      match s1.drop (k + 1) with
      | c :: rest => if c = ':' then tryMERest rest else none
      | [] => none
    match here with
    | some w => some w
    | none => tryClassColon s1 k

/-- Try `\[UnityCrossThreadLogger\][\d/: APM]+:\s+Match to \S+:\s+(\w+)`
at one position; returns the captured event type. -/
def tryMatchEvent (s : Line) : Option String :=
  match expectLit litUCTL s with
  | none => none
  | some s1 => tryClassColon s1 (s1.takeWhile tsClass).length

/-- `re.search` for the match-event pattern. -/
def searchMatchEvent : Line → Option String
  | [] => none
  | c :: rest =>
    match tryMatchEvent (c :: rest) with
    | some r => some r
    | none => searchMatchEvent rest

/-- Try `<== (\w+)\(` at one position. -/
def tryArrowIn (s : Line) : Option String :=
  match expectLit "<== ".toList s with
  | none => none
  | some s1 =>
    let w := s1.takeWhile isWordChar
    if w.isEmpty then none
    else
      match s1.dropWhile isWordChar with
      | c :: _ => if c = '(' then some (String.mk w) else none
      | [] => none

/-- `re.search` for the inbound-response pattern. -/
def searchArrowIn : Line → Option String
  | [] => none
  | c :: rest =>
    match tryArrowIn (c :: rest) with
    | some r => some r
    | none => searchArrowIn rest

/-! ### `collect_json` and `extract_json_blocks` -/

/-- Net delimiter depth contributed by a line: open minus close braces
plus open minus close brackets, counted over the raw text (including
delimiters inside string literals, as the Python counting does). -/
def braceDelta (l : Line) : Int :=
  (countChar lcub l : Int) - (countChar rcub l : Int)
    + (countChar '[' l : Int) - (countChar ']' l : Int)

/-- The accumulation loop of `collect_json`: while the running depth is
positive and lines remain, append the next line; stop once more than the
safety limit of 500 lines has been appended. -/
def collectAux (d : Int) (cnt : Nat) : List Line → Line → Line
  | [], acc => acc
  | l :: ls, acc =>
    if d ≤ 0 then acc
    else
      let acc2 := acc ++ '\n' :: l
      let d2 := d + braceDelta l
      if cnt + 1 > 500 then acc2 else collectAux d2 (cnt + 1) ls acc2

/-- `collect_json(start, lines, next_idx)`: collect a potentially
multi-line JSON string until braces balance, `rest` being the lines from
`next_idx` on. -/
def collect_json (start : Line) (rest : List Line) : Line :=
  collectAux (braceDelta start) 0 rest start

/-- The tag chosen for a bare JSON line from its top-level keys. -/
def tagOfKeys (data : Json) : String :=
  if hasKey data "greToClientEvent" then "GreToClientEvent"
  else if hasKey data "matchGameRoomStateChangedEvent" then "MatchGameRoomStateChangedEvent"
  else if hasKey data "authenticateResponse" then "AuthenticateResponse"
  else "standalone"

/-- Eagerly decode an escaped-JSON `request` string field under the
synthetic `_parsed_request` key (failures leave the block unchanged). -/
def attachRequest (data : Json) : Json :=
  match pyGet data "request" with
  | some (.str s) =>
    (match json_loads s.toList with
     | some v => objSet data "_parsed_request" v
     | none => data)
  | _ => data

/-- Trigger 5 (bare JSON line, only for stripped length > 10) and the
tail of trigger 4 falling through to it. -/
def bareLineBlocks (line : Line) (rest : List Line) : List (String × Json) :=
  let stripped := pyStrip line
  if lineStarts [lcub] stripped && stripped.length > 10 then
    match json_loads (collect_json stripped rest) with
    | some data => [(tagOfKeys data, data)]
    | none => []
  else []

/-- Triggers 4 and 5: a `[UnityCrossThreadLogger]`-headed line whose
remainder starts a JSON value, else a bare JSON line. -/
def taggedOrBare (line : Line) (rest : List Line) : List (String × Json) :=
  if lineStarts litUCTL line then
    let astr := pyStrip (line.drop litUCTL.length)
    if lineStarts [lcub] astr then
      match json_loads (collect_json astr rest) with
      | some data => [("standalone", data)]
      | none => []
    else bareLineBlocks line rest
  else bareLineBlocks line rest

/-- One iteration of the `extract_json_blocks` scan: the five triggers
tried in order on the current line (`rest` holds the following lines,
which triggers 2 and 3 peek at and `collect_json` may consume textually;
the scan position itself always advances by exactly one line). -/
def processLine (line : Line) (rest : List Line) : List (String × Json) :=
  match searchArrowOut line with
  | some (method, jstart) =>
    (match json_loads (collect_json jstart rest) with
     | some data => [(method, attachRequest data)]
     | none => [])
  | none =>
    match searchMatchEvent line with
    | some event_type =>
      (match rest with
       | next :: rest2 =>
         let stripped := pyStrip next
         if lineStarts [lcub] stripped then
           match json_loads (collect_json stripped rest2) with
           | some data => [(event_type, data)]
           | none => []
         else []
       | [] => [])
    | none =>
      match searchArrowIn line with
      | some method =>
        if !lineStarts "[UnityCrossThreadLogger]==>".toList (pyStrip line) then
          (match rest with
           | next :: rest2 =>
             let stripped := pyStrip next
             if lineStarts [lcub] stripped then
               match json_loads (collect_json stripped rest2) with
               | some data => [(method, data)]
               | none => []
             else []
           | [] => [])
        else taggedOrBare line rest
      | none => taggedOrBare line rest

/-- The whole-line scan of `extract_json_blocks` over split lines. -/
def extractLines : List Line → List (String × Json)
  | [] => []
  | line :: rest => processLine line rest ++ extractLines rest

/-- Python `str.split('\\n')` on the log text, as a structural recursion
over characters (empty text gives one empty line, a trailing newline a
trailing empty line, exactly as in Python). -/
def splitLinesAux : List Char → Line → List Line
  | [], acc => [acc.reverse]
  | c :: rest, acc =>
    if c = '\n' then acc.reverse :: splitLinesAux rest []
    else splitLinesAux rest (c :: acc)

/-- `log_text.split('\\n')`. -/
def splitLines (log_text : String) : List Line :=
  splitLinesAux log_text.toList []

/-- `extract_json_blocks(log_text)`: split on newlines and scan. -/
def extract_json_blocks (log_text : String) : List (String × Json) :=
  extractLines (splitLines log_text)

/-! ### `build_match` -/

/-- `_normalize_format`: convert Arena event IDs to readable names;
unrecognized labels pass through unchanged. -/
def _normalize_format (event_id : String) : String :=
  let el := lowerLine event_id.toList
  let has := fun (p : String) => containsSub el p.toList
  if has "brawl" && has "historic" then "Historic Brawl"
  else if has "brawl" && has "standard" then "Standard Brawl"
  else if has "brawl" then "Brawl"
  else if has "ladder" || has "play_constructed" then "Standard"
  else if has "historic" then "Historic"
  else if has "explorer" then "Explorer"
  else if has "timeless" then "Timeless"
  else if has "draft" then "Draft"
  else if has "sealed" then "Sealed"
  else if has "alchemy" then "Alchemy"
  else event_id

/-- `_normalize_format` lifted to the stored JSON label (the Python code
would raise on a non-string label; the model passes it through). -/
def normalizeJson : Json → Json
  | .str s => .str (_normalize_format s)
  | other => other

/-- Python `o == "lit"` where `o` is `dict.get(...)` on a JSON value. -/
def optIsStr (o : Option Json) (s : String) : Bool :=
  match o with
  | some (.str t) => t == s
  | _ => false

/-- The first `resultList` entry with `scope == "MatchScope_Match"` (the
Python loop breaks on it). -/
def first_match_scope : List Json → Option Json
  | [] => none
  | r :: rest =>
    if optIsStr (pyGet r "scope") "MatchScope_Match" then some r
    else first_match_scope rest

/-- Result derivation from one event's `_finalMatchResult`, updating the
running result: an explicit draw; a team-indexed win/loss resolved against
`player_team_id`; else the conservative `loss` fallback for a win/loss
signal whose team resolution is unavailable. -/
def event_result_update (player_team_id : Option Json) (cur : Option String)
    (e : Json) : Option String :=
  match pyGet e "_finalMatchResult" with
  | some fmr =>
    if truthy fmr then
      match first_match_scope (asArr (pyGetD fmr "resultList" (.arr []))) with
      | some r =>
        let winning_team := pyGetN r "winningTeamId"
        let result_type := pyGetD r "result" (.str "")
        if optIsStr (some result_type) "ResultType_Draw" then some "draw"
        else
          match winning_team, player_team_id with
          | some w, some p => some (if jsonEq w p then "win" else "loss")
          | _, _ =>
            if jsonStrContains result_type "WinLoss" || jsonStrContains result_type "Win" then
              some "loss"
            else cur
      | none => cur
    else cur
  | none => cur

/-- Read `turnInfo.turnNumber` as an integer (missing pieces default to 0;
a Python bool compares as its integer value; other non-numeric values
would raise in Python and leave the count unchanged in the model). -/
def jsonToInt : Json → Int
  | .num n => n
  | .bool b => if b then 1 else 0
  | _ => 0

/-- Add to a played-cards set, modelled as an insertion-ordered
deduplicated list (a deterministic stand-in for Python set order). -/
def addCard (l : List String) (s : String) : List String :=
  if l.contains s then l else l ++ [s]

/-- Accumulator of the `build_match` event loop. -/
structure BMAcc where
  result : Option String
  turns : Int
  cards_played : List String
  opponent_cards : List String
deriving Repr

/-- One iteration of the `build_match` event loop: update the result from
any terminal signal, and on a game-state message update the turn maximum
and partition in-play object ids by seat (1 = player, 2 = opponent;
non-positive or non-numeric `grpId` values are skipped). -/
def bm_step (player_team_id : Option Json) (acc : BMAcc) (e : Json) : BMAcc :=
  let acc1 := { acc with result := event_result_update player_team_id acc.result e }
  if optIsStr (pyGet e "type") "GREMessageType_GameStateMessage" then
    let gsm := pyGetD e "gameStateMessage" (.obj [])
    let t := jsonToInt (pyGetD (pyGetD gsm "turnInfo" (.obj [])) "turnNumber" (.num 0))
    let turns2 := if t > acc1.turns then t else acc1.turns
    let pr := (asArr (pyGetD gsm "gameObjects" (.arr []))).foldl
      (fun (pr : List String × List String) go =>
        match pyGet go "grpId" with
        | some (.num n) =>
          if n ≤ 0 then pr
          else
            match pyGet go "ownerSeatId" with
            | some (.num 1) => (addCard pr.1 (toString n), pr.2)
            | some (.num 2) => (pr.1, addCard pr.2 (toString n))
            | _ => pr
        | _ => pr)
      (acc1.cards_played, acc1.opponent_cards)
    { acc1 with turns := turns2, cards_played := pr.1, opponent_cards := pr.2 }
  else acc1

/-- The finished match record as stored (serialized list fields included). -/
structure MatchRecord where
  match_id : Json
  player_name : Option Json
  opponent_name : Option Json
  result : String
  format : Option Json
  turns : Int
  deck_cards : Option String
  cards_played : String
  opponent_cards_seen : String
  raw_events : Option String
deriving Repr

/-- `build_match`: fold the events, return `none` when no result was
derived (Python `if not result: return None`), else the full record. -/
def build_match (match_id : Json) (events : List Json) (deck : Option (List Json))
    (player_name opponent_name player_team_id event_format : Option Json) :
    Option MatchRecord :=
  let acc := events.foldl (bm_step player_team_id) ⟨none, 0, [], []⟩
  match acc.result with
  | none => none
  | some r =>
    if r.length = 0 then none
    else some {
      match_id := match_id
      player_name := player_name
      opponent_name := opponent_name
      result := r
      format := (match event_format with
                 | some f => if truthy f then some (normalizeJson f) else none
                 | none => none)
      turns := acc.turns
      deck_cards := (match deck with
                     | some d => if d.isEmpty then none else some (json_dumps (.arr d))
                     | none => none)
      cards_played := json_dumps (.arr (acc.cards_played.map Json.str))
      opponent_cards_seen := json_dumps (.arr (acc.opponent_cards.map Json.str))
      raw_events := none }

/-! ### `extract_matches` -/

/-- The mutable session state of the `extract_matches` loop. -/
structure EMState where
  matchesAcc : List MatchRecord
  current_deck : Option (List Json)
  current_match_id : Option Json
  current_events : List Json
  player_name : Option Json
  player_team_id : Option Json
  opponent_name : Option Json
  event_format : Option Json
deriving Repr

/-- Initial session state. -/
def initEM : EMState := ⟨[], none, none, [], none, none, none, none⟩

/-- Python `mid != current_match_id` where the current id may be `None`. -/
def jsonNeOpt (v : Json) : Option Json → Bool
  | some w => !jsonEq v w
  | none => true

/-- Detect the player name from an authentication response. -/
def em_auth (s : EMState) (data : Json) : EMState :=
  let auth := pyGetD data "authenticateResponse" (.obj [])
  match pyGet auth "screenName" with
  | some v => if truthy v then { s with player_name := some v } else s
  | none => s

/-- Deck submission via an `EventSetDeckV2` block: rebuild `current_deck`
from `MainDeck` and `CommandZone`, and capture the event format. -/
def em_deck (s : EMState) (method : String) (data : Json) : EMState :=
  if method = "EventSetDeckV2" then
    let req := pyGetD data "_parsed_request" (.obj [])
    let deck_data := pyGetD req "Deck" (.obj [])
    let main_deck := pyGetD deck_data "MainDeck" (pyGetD deck_data "mainDeck" (.arr []))
    let deck1 := (asArr main_deck).foldl
      (fun (acc : List Json) ce =>
        match ce with
        | .obj _ =>
          let card_id := pyGetD ce "cardId" (pyGetD ce "Id" (.str ""))
          let qty := pyGetD ce "quantity" (pyGetD ce "Quantity" (.num 1))
          acc ++ [Json.obj [("id", .str (pyStr card_id)), ("qty", qty)]]
        | .num n => acc ++ [Json.obj [("id", .str (toString n)), ("qty", .num 1)]]
        | _ => acc)
      []
    let cmd_zone := pyGetD deck_data "CommandZone" (pyGetD deck_data "commandZone" (.arr []))
    let deck2 := (asArr cmd_zone).foldl
      (fun (acc : List Json) ce =>
        match ce with
        | .obj _ =>
          let card_id := pyGetD ce "cardId" (.str "")
          acc ++ [Json.obj [("id", .str (pyStr card_id)), ("qty", .num 1), ("zone", .str "commander")]]
        | _ => acc)
      deck1
    let s2 := { s with current_deck := some deck2 }
    let event_name := pyGetD req "EventName" (.str "")
    if truthy event_name then { s2 with event_format := some event_name } else s2
  else s

/-- `EventJoin` blocks also carry format information. -/
def em_join (s : EMState) (method : String) (data : Json) : EMState :=
  if method = "EventJoin" then
    let req := pyGetD data "_parsed_request" (.obj [])
    let event_name := pyGetD req "EventName" (.str "")
    if truthy event_name then { s with event_format := some event_name } else s
  else s

/-- Finalize the in-progress match: `if current_match_id and
current_events:` build it and append any produced record. -/
def finalize_current (s : EMState) : EMState :=
  match s.current_match_id with
  | some mid =>
    if truthy mid && !s.current_events.isEmpty then
      match build_match mid s.current_events s.current_deck s.player_name
          s.opponent_name s.player_team_id s.event_format with
      | some m => { s with matchesAcc := s.matchesAcc ++ [m] }
      | none => s
    else s
  | none => s

/-- The roster loop over `reservedPlayers`: the entry matching the player
name fixes `player_team_id`, any other fixes `opponent_name`; the first
truthy `eventId` fills a missing format. -/
def em_roster_step (st : EMState) (p : Json) : EMState :=
  let p_name := pyGetD p "playerName" (.str "")
  let p_team := pyGetN p "teamId"
  let p_event := pyGetD p "eventId" (.str "")
  let st2 :=
    if (match st.player_name with
        | some pn => jsonEq p_name pn
        | none => false) then
      { st with player_team_id := p_team }
    else { st with opponent_name := some p_name }
  if truthy p_event && !truthyOpt st2.event_format then
    { st2 with event_format := some p_event }
  else st2

/-- The roster loop folded over the reserved players. -/
def em_roster (s : EMState) (players : List Json) : EMState :=
  players.foldl em_roster_step s

/-- The `mgr` local of the loop: `data.get("matchGameRoomStateChangedEvent", {})`. -/
def mgrOf (data : Json) : Json := pyGetD data "matchGameRoomStateChangedEvent" (.obj [])

/-- The `gri` local: `mgr.get("gameRoomInfo", {})`. -/
def griOf (data : Json) : Json := pyGetD (mgrOf data) "gameRoomInfo" (.obj [])

/-- The `grc` local: `gri.get("gameRoomConfig", {})`. -/
def grcOf (data : Json) : Json := pyGetD (griOf data) "gameRoomConfig" (.obj [])

/-- The `reserved` local: `grc.get("reservedPlayers", [])`. -/
def reservedOf (data : Json) : Json := pyGetD (grcOf data) "reservedPlayers" (.arr [])

/-- The `match_id_from_config` local: `grc.get("matchId", "")`. -/
def midOf (data : Json) : Json := pyGetD (grcOf data) "matchId" (.str "")

/-- Match room state changes: on a fresh `matchId` finalize the previous
match and reset the per-match state, read the roster, and append any
`finalMatchResult` to the in-progress match's events. -/
def em_mgr (s : EMState) (data : Json) : EMState :=
  if truthy (mgrOf data) then
    let s1 :=
      if truthy (reservedOf data) then
        let s0 :=
          if truthy (midOf data) && jsonNeOpt (midOf data) s.current_match_id then
            let sf := finalize_current s
            { sf with current_match_id := some (midOf data), current_events := [],
                      opponent_name := none, player_team_id := none }
          else s
        em_roster s0 (asArr (reservedOf data))
      else s
    match pyGet (griOf data) "finalMatchResult" with
    | some f =>
      if truthy f && truthyOpt s1.current_match_id then
        { s1 with current_events := s1.current_events ++ [Json.obj [("_finalMatchResult", f)]] }
      else s1
    | none => s1
  else s

/-- Collect GRE messages (game state, cards, turns) into the in-progress
match's events. -/
def em_gte (s : EMState) (data : Json) : EMState :=
  let gte := pyGetD data "greToClientEvent" (.obj [])
  if truthy gte then
    { s with current_events := s.current_events ++ asArr (pyGetD gte "greToClientMessages" (.arr [])) }
  else s

/-- A standalone block whose first 100 repr characters mention `matchId`:
a fresh id finalizes the previous match and resets the event list. -/
def em_standalone (s : EMState) (method : String) (data : Json) : EMState :=
  if method = "standalone" then
    if containsSub ((pyStr data).toList.take 100) "matchId".toList then
      match pyGetN data "matchId" with
      | some mid =>
        if truthy mid && jsonNeOpt mid s.current_match_id then
          let sf := finalize_current s
          { sf with current_match_id := some mid, current_events := [] }
        else s
      | none => s
    else s
  else s

/-- One iteration of the `extract_matches` loop over a block, applying the
independent `if` sections of the Python loop body in source order. -/
def em_step (s : EMState) (b : String × Json) : EMState :=
  em_standalone
    (em_gte (em_mgr (em_join (em_deck (em_auth s b.2) b.1 b.2) b.1 b.2) b.2) b.2)
    b.1 b.2

/-- `extract_matches(blocks)`: fold the blocks and handle the last match. -/
def extract_matches (blocks : List (String × Json)) : List MatchRecord :=
  (finalize_current (blocks.foldl em_step initEM)).matchesAcc

/-! ### The watcher: `store_matches`, `process_new_content`, `tail_file` -/

/-- The persistence connection: the set of `match_id` keys present in
`arena_parsed_matches` plus sqlite's cumulative `total_changes` counter
for the connection. -/
structure DBConn where
  ids : List Json
  total_changes : Nat
deriving Repr

/-- One `INSERT OR IGNORE` plus the loop's `if conn.total_changes:
stored += 1` (note that `total_changes` is cumulative for the connection,
not per statement). -/
def store_one (c : DBConn) (stored : Nat) (m : MatchRecord) : DBConn × Nat :=
  let c2 :=
    if c.ids.any (fun i => jsonEq i m.match_id) then c
    else { ids := c.ids ++ [m.match_id], total_changes := c.total_changes + 1 }
  (c2, if c2.total_changes ≠ 0 then stored + 1 else stored)

/-- `store_matches(conn, matches)`: returns the updated connection and the
reported count of new matches. -/
def store_matches (c : DBConn) (ms : List MatchRecord) : DBConn × Nat :=
  ms.foldl (fun (pr : DBConn × Nat) m => store_one pr.1 pr.2 m) (c, 0)

/-- The watcher's incremental-processing state: the connection and the
carry-over text buffer. -/
structure WatchState where
  conn : DBConn
  buffer : List String
deriving Repr

/-- `process_new_content`: append the chunk to the buffer, re-parse the
whole accumulated buffer, store any matches, and clear the buffer only
when the store reported progress. -/
def process_new_content (st : WatchState) (content : String) : WatchState × Nat :=
  let buffer2 := st.buffer ++ [content]
  let full_text := String.join buffer2
  let blocks := extract_json_blocks full_text
  if blocks.isEmpty then ({ st with buffer := buffer2 }, 0)
  else
    let ms := extract_matches blocks
    if ms.isEmpty then ({ st with buffer := buffer2 }, 0)
    else
      let pr := store_matches st.conn ms
      if pr.2 > 0 then ({ conn := pr.1, buffer := [] }, pr.2)
      else ({ conn := pr.1, buffer := buffer2 }, pr.2)

/-- Feed a sequence of appended chunks through `process_new_content`. -/
def watch_chunks (st : WatchState) (chunks : List String) : WatchState :=
  chunks.foldl (fun s c => (process_new_content s c).1) st

/-- The batch path of `arena_log_parser.main`: extract, reconstruct,
store the whole text at once. -/
def batch_run (c : DBConn) (text : String) : DBConn :=
  (store_matches c (extract_matches (extract_json_blocks text))).1

/-- One observed state of the watched path at a poll tick: the OS file
identity (inode) and the file's current text. -/
structure Snapshot where
  inode : Nat
  content : String
deriving Repr

/-- One poll tick of `tail_file`: `none` means the identity changed and
the generator returns (caller must reopen); otherwise the tick yields the
newly appended text (empty reads are not yielded) and the advanced
offset, resetting to zero first when the file shrank below the offset. -/
def tail_step (inode : Nat) (pos : Nat) (s : Snapshot) : Option (Option String × Nat) :=
  if s.inode ≠ inode then none
  else
    let pos1 := if s.content.length < pos then 0 else pos
    let chunk := String.mk (s.content.toList.drop pos1)
    some ((if chunk.isEmpty then none else some chunk), s.content.length)

/-- Run the `tail_file` poll loop over a sequence of per-tick snapshots
(`none` = the path is momentarily missing, which the loop sleeps through).
Returns the yielded chunks and whether the loop returned because the file
identity changed. -/
def tail_run (inode : Nat) (pos : Nat) : List (Option Snapshot) → List String × Bool
  | [] => ([], false)
  | none :: ticks => tail_run inode pos ticks
  | some s :: ticks =>
    match tail_step inode pos s with
    | none => ([], true)
    | some (chunk, pos2) =>
      let pr := tail_run inode pos2 ticks
      ((match chunk with
        | some c => c :: pr.1
        | none => pr.1), pr.2)

/-- `tail_file(path)`: open, seek to end-of-file, record the identity,
then poll.  `snap0` is the file as first opened. -/
def tail_file_run (snap0 : Snapshot) (ticks : List (Option Snapshot)) : List String × Bool :=
  tail_run snap0.inode snap0.content.length ticks

/-! ### Derived views of the `build_match` fold (projections used by the
claims about results and turn counts) -/

/-- The result component of the `build_match` event loop, as a fold. -/
def derive_result (player_team_id : Option Json) (events : List Json) : Option String :=
  events.foldl (event_result_update player_team_id) none

/-- Whether an event is a game-state message (`type` check of the loop). -/
def isGSM (e : Json) : Bool :=
  optIsStr (pyGet e "type") "GREMessageType_GameStateMessage"

/-- The turn number read from a game-state message (missing parts
defaulting to 0, as in the code). -/
def readTurn (e : Json) : Int :=
  jsonToInt (pyGetD (pyGetD (pyGetD e "gameStateMessage" (.obj [])) "turnInfo" (.obj []))
    "turnNumber" (.num 0))

/-- The turn numbers observed across the game-state sub-events of an
event sequence, in order. -/
def observed_turns (events : List Json) : List Int :=
  (events.filter (fun e => isGSM e)).map readTurn

/-- One step of the turns component of the `build_match` loop. -/
def turn_step (t : Int) (e : Json) : Int :=
  if isGSM e then (if readTurn e > t then readTurn e else t) else t

theorem bm_step_result (pt : Option Json) (acc : BMAcc) (e : Json) :
    (bm_step pt acc e).result = event_result_update pt acc.result e := by
  unfold bm_step
  dsimp only
  split <;> rfl

theorem bm_foldl_result (pt : Option Json) :
    ∀ (events : List Json) (acc : BMAcc),
      (events.foldl (bm_step pt) acc).result
        = events.foldl (event_result_update pt) acc.result := by
  intro events
  induction events with
  | nil => intro acc; rfl
  | cons e rest ih =>
    intro acc
    simp only [List.foldl_cons, ih, bm_step_result]

theorem bm_step_turns (pt : Option Json) (acc : BMAcc) (e : Json) :
    (bm_step pt acc e).turns = turn_step acc.turns e := by
  unfold bm_step turn_step isGSM readTurn
  dsimp only
  split <;> rfl

theorem bm_foldl_turns (pt : Option Json) :
    ∀ (events : List Json) (acc : BMAcc),
      (events.foldl (bm_step pt) acc).turns = events.foldl turn_step acc.turns := by
  intro events
  induction events with
  | nil => intro acc; rfl
  | cons e rest ih =>
    intro acc
    simp only [List.foldl_cons, ih, bm_step_turns]

theorem event_result_update_cases (pt : Option Json) (cur : Option String) (e : Json) :
    event_result_update pt cur e = cur ∨ event_result_update pt cur e = some "win" ∨
    event_result_update pt cur e = some "loss" ∨ event_result_update pt cur e = some "draw" := by
  unfold event_result_update
  dsimp only
  repeat' first
    | (left; rfl)
    | (right; left; rfl)
    | (right; right; left; rfl)
    | (right; right; right; rfl)
    | split

theorem foldl_result_mem (pt : Option Json) :
    ∀ (events : List Json) (cur : Option String),
      (cur = none ∨ cur = some "win" ∨ cur = some "loss" ∨ cur = some "draw") →
      (events.foldl (event_result_update pt) cur = none ∨
       events.foldl (event_result_update pt) cur = some "win" ∨
       events.foldl (event_result_update pt) cur = some "loss" ∨
       events.foldl (event_result_update pt) cur = some "draw") := by
  intro events
  induction events with
  | nil => intro cur h; exact h
  | cons e rest ih =>
    intro cur h
    simp only [List.foldl_cons]
    apply ih
    rcases event_result_update_cases pt cur e with h1 | h1 | h1 | h1 <;> rw [h1] <;> tauto

theorem derive_result_mem (pt : Option Json) (events : List Json) :
    derive_result pt events = none ∨ derive_result pt events = some "win" ∨
    derive_result pt events = some "loss" ∨ derive_result pt events = some "draw" :=
  foldl_result_mem pt events none (Or.inl rfl)

theorem build_match_none_iff (mid : Json) (events : List Json) (deck : Option (List Json))
    (pn onm pt fmt : Option Json) :
    build_match mid events deck pn onm pt fmt = none ↔ derive_result pt events = none := by
  unfold build_match
  dsimp only
  rw [show (List.foldl (bm_step pt) ⟨none, 0, [], []⟩ events).result
        = derive_result pt events from bm_foldl_result pt events ⟨none, 0, [], []⟩]
  rcases derive_result_mem pt events with h | h | h | h <;> rw [h] <;> simp <;> decide

theorem build_match_some_result (mid : Json) (events : List Json) (deck : Option (List Json))
    (pn onm pt fmt : Option Json) (r : MatchRecord)
    (h : build_match mid events deck pn onm pt fmt = some r) :
    derive_result pt events = some r.result := by
  unfold build_match at h
  dsimp only at h
  rw [show (List.foldl (bm_step pt) ⟨none, 0, [], []⟩ events).result
        = derive_result pt events from bm_foldl_result pt events ⟨none, 0, [], []⟩] at h
  rcases hd : derive_result pt events with _ | v
  · rw [hd] at h; exact absurd h (by simp)
  · rw [hd] at h
    dsimp only at h
    by_cases hv : v.length = 0
    · rw [if_pos hv] at h; exact absurd h (by simp)
    · rw [if_neg hv] at h
      have h2 := Option.some.inj h
      rw [← h2]

theorem build_match_result_tri (mid : Json) (events : List Json) (deck : Option (List Json))
    (pn onm pt fmt : Option Json) (r : MatchRecord)
    (h : build_match mid events deck pn onm pt fmt = some r) :
    r.result = "win" ∨ r.result = "loss" ∨ r.result = "draw" := by
  have hd := build_match_some_result mid events deck pn onm pt fmt r h
  rcases derive_result_mem pt events with h1 | h1 | h1 | h1 <;> rw [h1] at hd <;>
    simp at hd <;> tauto

/-! ### Terminal-signal predicates and the conservative-loss analysis -/

/-- An event carrying a match-scoped explicit-draw terminal signal. -/
def is_draw_signal (e : Json) : Bool :=
  match pyGet e "_finalMatchResult" with
  | some fmr =>
    truthy fmr &&
      (match first_match_scope (asArr (pyGetD fmr "resultList" (.arr []))) with
       | some r => optIsStr (some (pyGetD r "result" (.str ""))) "ResultType_Draw"
       | none => false)
  | none => false

/-- An event carrying a match-scoped win/loss terminal signal (a non-draw
result whose type mentions `WinLoss` or `Win`). -/
def is_winloss_signal (e : Json) : Bool :=
  match pyGet e "_finalMatchResult" with
  | some fmr =>
    truthy fmr &&
      (match first_match_scope (asArr (pyGetD fmr "resultList" (.arr []))) with
       | some r =>
         !(optIsStr (some (pyGetD r "result" (.str ""))) "ResultType_Draw") &&
           (jsonStrContains (pyGetD r "result" (.str "")) "WinLoss" ||
            jsonStrContains (pyGetD r "result" (.str "")) "Win")
       | none => false)
  | none => false

theorem eru_none_cases (cur : Option String) (e : Json) :
    event_result_update none cur e = cur ∨ event_result_update none cur e = some "loss" ∨
    event_result_update none cur e = some "draw" := by
  unfold event_result_update
  dsimp only
  repeat' first
    | contradiction
    | (left; rfl)
    | (right; left; rfl)
    | (right; right; rfl)
    | split

theorem eru_no_draw (cur : Option String) (e : Json) (h : is_draw_signal e = false) :
    event_result_update none cur e = cur ∨ event_result_update none cur e = some "loss" := by
  unfold event_result_update
  unfold is_draw_signal at h
  dsimp only
  rcases h1 : pyGet e "_finalMatchResult" with _ | fmr
  · left; rfl
  · rw [h1] at h
    dsimp only at h ⊢
    by_cases h2 : truthy fmr = true
    · rw [if_pos h2]
      rcases h3 : first_match_scope (asArr (pyGetD fmr "resultList" (.arr []))) with _ | r
      · left; rfl
      · rw [h3] at h
        dsimp only at h ⊢
        simp only [h2, Bool.true_and] at h
        rw [h]
        simp only [Bool.false_eq_true, if_false]
        rcases h4 : pyGetN r "winningTeamId" with _ | w <;> dsimp only <;> split <;> simp
    · rw [if_neg h2]; left; rfl

theorem eru_winloss (cur : Option String) (e : Json) (h : is_winloss_signal e = true) :
    event_result_update none cur e = some "loss" := by
  unfold event_result_update
  unfold is_winloss_signal at h
  dsimp only
  rcases h1 : pyGet e "_finalMatchResult" with _ | fmr
  · rw [h1] at h; exact absurd h (by simp)
  · rw [h1] at h
    dsimp only at h ⊢
    rcases h3 : first_match_scope (asArr (pyGetD fmr "resultList" (.arr []))) with _ | r
    · rw [h3] at h; simp at h
    · rw [h3] at h
      simp only [Bool.and_eq_true, Bool.not_eq_true', Bool.or_eq_true] at h
      rw [if_pos h.1]
      dsimp only
      rw [h.2.1]
      simp only [Bool.false_eq_true, if_false]
      rcases h4 : pyGetN r "winningTeamId" with _ | w <;> dsimp only <;>
        rw [if_pos (by simpa using h.2.2)]

theorem foldl_keep_loss (events : List Json) :
    (∀ e ∈ events, is_draw_signal e = false) →
    events.foldl (event_result_update none) (some "loss") = some "loss" := by
  induction events with
  | nil => intro _; rfl
  | cons e rest ih =>
    intro h
    simp only [List.foldl_cons]
    rcases eru_no_draw (some "loss") e (h e (List.mem_cons_self e rest)) with h1 | h1 <;>
      rw [h1] <;> exact ih (fun x hx => h x (List.mem_cons_of_mem e hx))

theorem foldl_loss (events : List Json) :
    ∀ cur : Option String,
      (∀ e ∈ events, is_draw_signal e = false) →
      (∃ e ∈ events, is_winloss_signal e = true) →
      events.foldl (event_result_update none) cur = some "loss" := by
  induction events with
  | nil => intro cur _ hex; exact absurd hex (by simp)
  | cons e rest ih =>
    intro cur hnd hex
    simp only [List.foldl_cons]
    by_cases hw : is_winloss_signal e = true
    · rw [eru_winloss cur e hw]
      exact foldl_keep_loss rest (fun x hx => hnd x (List.mem_cons_of_mem e hx))
    · rcases hex with ⟨w, hw1, hw2⟩
      rcases List.mem_cons.mp hw1 with h | h
      · subst h; exact absurd hw2 hw
      · exact ih _ (fun x hx => hnd x (List.mem_cons_of_mem e hx)) ⟨w, h, hw2⟩

theorem foldl_never_win (events : List Json) :
    ∀ cur : Option String, cur ≠ some "win" →
      events.foldl (event_result_update none) cur ≠ some "win" := by
  induction events with
  | nil => intro cur h; exact h
  | cons e rest ih =>
    intro cur h
    simp only [List.foldl_cons]
    apply ih
    rcases eru_none_cases cur e with h1 | h1 | h1 <;> rw [h1] <;> simp_all

/-- A terminal match-scoped win/loss signal with no winning-team id. -/
def c1ex_winloss : Json :=
  .obj [("_finalMatchResult", .obj [("resultList", .arr
    [.obj [("scope", .str "MatchScope_Match"), ("result", .str "ResultType_WinLoss")]])])]

/-- A terminal match-scoped explicit-draw signal. -/
def c1ex_draw : Json :=
  .obj [("_finalMatchResult", .obj [("resultList", .arr
    [.obj [("scope", .str "MatchScope_Match"), ("result", .str "ResultType_Draw")]])])]

/-- C1 (amended).  With the player team unknown (`player_team_id = None`),
a record emitted by `build_match` never has result `win`; and if moreover
some event carries a match-scoped win/loss terminal signal and no event
carries a match-scoped draw signal, the emitted record exists and has
result `loss` (the conservative default). -/
theorem c1_conservative_loss_on_unknown_team
    (mid : Json) (events : List Json) (deck : Option (List Json))
    (pn onm fmt : Option Json) :
    (∀ r : MatchRecord,
        build_match mid events deck pn onm none fmt = some r → r.result ≠ "win")
    ∧ ((∀ e ∈ events, is_draw_signal e = false) →
       (∃ e ∈ events, is_winloss_signal e = true) →
       ∃ r : MatchRecord,
         build_match mid events deck pn onm none fmt = some r ∧ r.result = "loss") := by
  constructor
  · intro r h hwin
    have hd := build_match_some_result mid events deck pn onm none fmt r h
    rw [hwin] at hd
    exact foldl_never_win events none (by simp) hd
  · intro hnd hex
    have hd : derive_result none events = some "loss" := foldl_loss events none hnd hex
    rcases hb : build_match mid events deck pn onm none fmt with _ | r
    · rw [build_match_none_iff] at hb
      rw [hb] at hd
      exact absurd hd (by simp)
    · refine ⟨r, rfl, ?_⟩
      have h2 := build_match_some_result mid events deck pn onm none fmt r hb
      rw [hd] at h2
      exact (Option.some.inj h2).symm

/-- C1 counterexample.  The event list carries a match-scoped win/loss
signal with the team unknown (`player_team_id = None`, no winning-team
id), yet a later match-scoped draw signal overwrites the running result:
the emitted record's result is `draw`, not `loss`. -/
theorem c1_counterexample :
    is_winloss_signal c1ex_winloss = true ∧
    (build_match (.str "m") [c1ex_winloss, c1ex_draw] none none none none none).map
        (fun r => r.result) = some "draw" ∧
    some "draw" ≠ some "loss" :=
  ⟨by decide, by decide, by decide⟩

/-- C1 witness: the amended theorem applied to a one-signal event list
with the team unknown yields the `loss` record. -/
theorem c1_conservative_loss_witness :
    ∃ r : MatchRecord,
      build_match (.str "m") [c1ex_winloss] none none none none none = some r ∧
      r.result = "loss" :=
  (c1_conservative_loss_on_unknown_team (.str "m") [c1ex_winloss] none none none none).2
    (by intro e he; rw [List.mem_singleton] at he; subst he; decide)
    ⟨c1ex_winloss, List.mem_singleton.mpr rfl, by decide⟩

/-! ### Completeness of emitted records -/

theorem em_auth_matchesAcc (s : EMState) (d : Json) :
    (em_auth s d).matchesAcc = s.matchesAcc := by
  unfold em_auth; dsimp only; repeat' split
  all_goals rfl

theorem em_deck_matchesAcc (s : EMState) (m : String) (d : Json) :
    (em_deck s m d).matchesAcc = s.matchesAcc := by
  unfold em_deck; dsimp only; repeat' split
  all_goals rfl

theorem em_join_matchesAcc (s : EMState) (m : String) (d : Json) :
    (em_join s m d).matchesAcc = s.matchesAcc := by
  unfold em_join; dsimp only; repeat' split
  all_goals rfl

theorem em_gte_matchesAcc (s : EMState) (d : Json) :
    (em_gte s d).matchesAcc = s.matchesAcc := by
  unfold em_gte; dsimp only; repeat' split
  all_goals rfl

theorem em_roster_step_matchesAcc (st : EMState) (p : Json) :
    (em_roster_step st p).matchesAcc = st.matchesAcc := by
  unfold em_roster_step; dsimp only; repeat' split
  all_goals rfl

theorem em_roster_matchesAcc (players : List Json) :
    ∀ s : EMState, (em_roster s players).matchesAcc = s.matchesAcc := by
  induction players with
  | nil => intro s; rfl
  | cons p ps ih =>
    intro s
    show (List.foldl em_roster_step (em_roster_step s p) ps).matchesAcc = s.matchesAcc
    rw [show List.foldl em_roster_step (em_roster_step s p) ps
          = em_roster (em_roster_step s p) ps from rfl]
    rw [ih, em_roster_step_matchesAcc]

theorem finalize_mem (s : EMState) (r : MatchRecord)
    (h : r ∈ (finalize_current s).matchesAcc) :
    r ∈ s.matchesAcc ∨ r.result = "win" ∨ r.result = "loss" ∨ r.result = "draw" := by
  unfold finalize_current at h
  rcases hm : s.current_match_id with _ | mid
  all_goals rw [hm] at h
  · exact Or.inl h
  · dsimp only at h
    by_cases hc : (truthy mid && !s.current_events.isEmpty) = true
    · rw [if_pos hc] at h
      rcases hb : build_match mid s.current_events s.current_deck s.player_name
          s.opponent_name s.player_team_id s.event_format with _ | m
      all_goals rw [hb] at h
      · exact Or.inl h
      · dsimp only at h
        rcases List.mem_append.mp h with h1 | h1
        · exact Or.inl h1
        · have heq : r = m := by simpa using h1
          subst heq
          exact Or.inr (build_match_result_tri _ _ _ _ _ _ _ _ hb)
    · rw [if_neg hc] at h; exact Or.inl h

theorem em_mgr_mem (s : EMState) (d : Json) (r : MatchRecord)
    (h : r ∈ (em_mgr s d).matchesAcc) :
    r ∈ s.matchesAcc ∨ r.result = "win" ∨ r.result = "loss" ∨ r.result = "draw" := by
  unfold em_mgr at h
  dsimp only at h
  by_cases h1 : truthy (mgrOf d) = true
  · rw [if_pos h1] at h
    have hfmr : ∀ s1 : EMState,
        r ∈ (match pyGet (griOf d) "finalMatchResult" with
             | some f =>
               if truthy f && truthyOpt s1.current_match_id then
                 { s1 with current_events :=
                     s1.current_events ++ [Json.obj [("_finalMatchResult", f)]] }
               else s1
             | none => s1).matchesAcc → r ∈ s1.matchesAcc := by
      intro s1 hx
      rcases hE : pyGet (griOf d) "finalMatchResult" with _ | f
      all_goals rw [hE] at hx
      · exact hx
      · dsimp only at hx
        by_cases h2 : (truthy f && truthyOpt s1.current_match_id) = true
        · rw [if_pos h2] at hx; exact hx
        · rw [if_neg h2] at hx; exact hx
    have h2 := hfmr _ h
    by_cases h3 : truthy (reservedOf d) = true
    · rw [if_pos h3] at h2
      rw [em_roster_matchesAcc] at h2
      by_cases h4 : (truthy (midOf d) && jsonNeOpt (midOf d) s.current_match_id) = true
      · rw [if_pos h4] at h2
        exact finalize_mem s r h2
      · rw [if_neg h4] at h2; exact Or.inl h2
    · rw [if_neg h3] at h2; exact Or.inl h2
  · rw [if_neg h1] at h; exact Or.inl h

theorem em_standalone_mem (s : EMState) (m : String) (d : Json) (r : MatchRecord)
    (h : r ∈ (em_standalone s m d).matchesAcc) :
    r ∈ s.matchesAcc ∨ r.result = "win" ∨ r.result = "loss" ∨ r.result = "draw" := by
  unfold em_standalone at h
  by_cases h1 : m = "standalone"
  · rw [if_pos h1] at h
    by_cases h2 : containsSub ((pyStr d).toList.take 100) "matchId".toList = true
    · rw [if_pos h2] at h
      rcases hE2 : pyGetN d "matchId" with _ | mid
      all_goals rw [hE2] at h
      · exact Or.inl h
      · dsimp only at h
        by_cases h3 : (truthy mid && jsonNeOpt mid s.current_match_id) = true
        · rw [if_pos h3] at h
          exact finalize_mem s r h
        · rw [if_neg h3] at h; exact Or.inl h
    · rw [if_neg h2] at h; exact Or.inl h
  · rw [if_neg h1] at h; exact Or.inl h

theorem em_step_mem (s : EMState) (b : String × Json) (r : MatchRecord)
    (h : r ∈ (em_step s b).matchesAcc) :
    r ∈ s.matchesAcc ∨ r.result = "win" ∨ r.result = "loss" ∨ r.result = "draw" := by
  unfold em_step at h
  rcases em_standalone_mem _ _ _ _ h with h1 | h1
  · rw [em_gte_matchesAcc] at h1
    rcases em_mgr_mem _ _ _ h1 with h2 | h2
    · rw [em_join_matchesAcc, em_deck_matchesAcc, em_auth_matchesAcc] at h2
      exact Or.inl h2
    · exact Or.inr h2
  · exact Or.inr h1

theorem em_foldl_mem (blocks : List (String × Json)) :
    ∀ (s : EMState) (r : MatchRecord),
      (∀ x ∈ s.matchesAcc, x.result = "win" ∨ x.result = "loss" ∨ x.result = "draw") →
      r ∈ (blocks.foldl em_step s).matchesAcc →
      r.result = "win" ∨ r.result = "loss" ∨ r.result = "draw" := by
  induction blocks with
  | nil => intro s r hs h; exact hs r h
  | cons b rest ih =>
    intro s r hs h
    simp only [List.foldl_cons] at h
    apply ih (em_step s b) r ?_ h
    intro x hx
    rcases em_step_mem s b x hx with h1 | h1
    · exact hs x h1
    · exact h1

theorem extract_matches_result_tri (blocks : List (String × Json)) (r : MatchRecord)
    (h : r ∈ extract_matches blocks) :
    r.result = "win" ∨ r.result = "loss" ∨ r.result = "draw" := by
  unfold extract_matches at h
  rcases finalize_mem _ _ h with h1 | h1
  · exact em_foldl_mem blocks initEM r (by intro x hx; exact absurd hx (by simp [initEM])) h1
  · exact h1

/-- A match-room block that starts a match and carries its terminal
win/loss signal: the game-room config of the witness block. -/
def c2wit_grc : Json :=
  .obj [("matchId", .str "m1"),
        ("reservedPlayers", .arr [.obj [("playerName", .str "P")]])]

/-- The terminal win/loss `finalMatchResult` payload of the witness block. -/
def c2wit_fmr : Json :=
  .obj [("resultList", .arr
    [.obj [("scope", .str "MatchScope_Match"), ("result", .str "ResultType_WinLoss")]])]

/-- The witness block's full payload. -/
def c2wit_data : Json :=
  .obj [("matchGameRoomStateChangedEvent", .obj [("gameRoomInfo", .obj
    [("gameRoomConfig", c2wit_grc), ("finalMatchResult", c2wit_fmr)])])]

/-- A one-block stream producing exactly one finished match. -/
def c2wit_blocks : List (String × Json) :=
  [("MatchGameRoomStateChangedEvent", c2wit_data)]

/-- The single record extracted from `c2wit_blocks`. -/
def c2wit_rec : MatchRecord :=
  match extract_matches c2wit_blocks with
  | r :: _ => r
  | [] => ⟨Json.null, none, none, "", none, 0, none, "", "", none⟩

/-- C2.  `build_match` returns `None` exactly when no result is derivable
from the accumulated events, and every record reaching the output list of
`extract_matches` carries a definite result (`win`/`loss`/`draw`) — an
unterminated match is dropped, never emitted as partial. -/
theorem c2_unterminated_match_dropped :
    (∀ (mid : Json) (events : List Json) (deck : Option (List Json))
        (pn onm pt fmt : Option Json),
        build_match mid events deck pn onm pt fmt = none ↔ derive_result pt events = none)
    ∧ (∀ (blocks : List (String × Json)) (r : MatchRecord),
        r ∈ extract_matches blocks →
        r.result = "win" ∨ r.result = "loss" ∨ r.result = "draw") :=
  ⟨build_match_none_iff, extract_matches_result_tri⟩

/-- C2 witness: the theorem applied to the empty event list and to the
record extracted from a concrete one-match block stream. -/
theorem c2_unterminated_match_dropped_witness :
    (build_match (.str "m") [] none none none none none = none ↔
      derive_result none [] = none)
    ∧ (c2wit_rec.result = "win" ∨ c2wit_rec.result = "loss" ∨ c2wit_rec.result = "draw") :=
  ⟨c2_unterminated_match_dropped.1 (.str "m") [] none none none none none,
   c2_unterminated_match_dropped.2 c2wit_blocks c2wit_rec (by
     rw [show extract_matches c2wit_blocks = [c2wit_rec] from rfl]
     exact List.mem_singleton.mpr rfl)⟩

/-! ### Turn counting -/

theorem turn_step_as_max (t : Int) (e : Json) :
    turn_step t e = if isGSM e then max t (readTurn e) else t := by
  unfold turn_step
  split
  · rcases lt_or_ge t (readTurn e) with h | h
    · rw [if_pos h, max_eq_right h.le]
    · rw [if_neg (not_lt.mpr h), max_eq_left h]
  · rfl

theorem foldl_turn_step_eq_max (events : List Json) :
    ∀ t0 : Int,
      events.foldl turn_step t0 = (observed_turns events).foldl max t0 := by
  induction events with
  | nil => intro t0; rfl
  | cons e rest ih =>
    intro t0
    simp only [List.foldl_cons, turn_step_as_max]
    unfold observed_turns
    by_cases h : isGSM e = true
    · rw [if_pos h]
      simp only [List.filter_cons_of_pos h, List.map_cons, List.foldl_cons]
      exact ih (max t0 (readTurn e))
    · rw [if_neg h]
      simp only [List.filter_cons_of_neg h]
      exact ih t0

theorem le_foldl_max (l : List Int) : ∀ t0 : Int, t0 ≤ l.foldl max t0 := by
  induction l with
  | nil => intro t0; exact le_refl t0
  | cons x rest ih =>
    intro t0
    simp only [List.foldl_cons]
    exact le_trans (le_max_left t0 x) (ih (max t0 x))

theorem build_match_turns (mid : Json) (events : List Json) (deck : Option (List Json))
    (pn onm pt fmt : Option Json) (r : MatchRecord)
    (h : build_match mid events deck pn onm pt fmt = some r) :
    r.turns = events.foldl turn_step 0 := by
  unfold build_match at h
  dsimp only at h
  rcases hd : (List.foldl (bm_step pt) ⟨none, 0, [], []⟩ events).result with _ | v
  all_goals rw [hd] at h
  all_goals dsimp only at h
  · exact absurd h (by simp)
  · by_cases hv : v.length = 0
    · rw [if_pos hv] at h; exact absurd h (by simp)
    · rw [if_neg hv] at h
      have h2 := Option.some.inj h
      rw [← h2]
      exact bm_foldl_turns pt events ⟨none, 0, [], []⟩

/-- C9 (amended).  The `turns` field of an emitted record equals the
maximum of 0 and all turn numbers observed across the game-state
sub-events (equivalently a fold of `max` over the observed turns starting
from 0), and is therefore always ≥ 0.  Negative observed turn numbers are
clamped away by the 0 start, so `turns` is not in general the plain
maximum of the observed values. -/
theorem c9_turns_max_observed (mid : Json) (events : List Json) (deck : Option (List Json))
    (pn onm pt fmt : Option Json) (r : MatchRecord)
    (h : build_match mid events deck pn onm pt fmt = some r) :
    r.turns = (observed_turns events).foldl max 0 ∧ 0 ≤ r.turns := by
  have h1 := build_match_turns mid events deck pn onm pt fmt r h
  rw [foldl_turn_step_eq_max] at h1
  exact ⟨h1, h1 ▸ le_foldl_max (observed_turns events) 0⟩

/-- A game-state sub-event reporting the (pathological) turn number −3. -/
def c9ex_gsm : Json :=
  .obj [("type", .str "GREMessageType_GameStateMessage"),
        ("gameStateMessage", .obj [("turnInfo", .obj [("turnNumber", .num (-3))])])]

/-- C9 counterexample.  With a single game-state sub-event reporting turn
−3 (plus a draw terminal signal so a record is emitted), the maximum turn
number observed is −3 but the emitted record's `turns` is 0: `turns` is
not the maximum of the observed turn numbers, which falsifies the claim
as stated. -/
theorem c9_counterexample :
    (build_match (.str "m") [c9ex_gsm, c1ex_draw] none none none none none).map
        (fun r => r.turns) = some 0 ∧
    (observed_turns [c9ex_gsm, c1ex_draw]).max? = some (-3) ∧
    ((0 : Int) = -3 → False) :=
  ⟨by decide, by decide, by decide⟩

/-- C9 witness: the amended theorem applied to a concrete event list with
observed turns `[7]` and a draw terminal signal. -/
theorem c9_turns_max_observed_witness :
    ∃ r : MatchRecord,
      build_match (.str "m")
          [.obj [("type", .str "GREMessageType_GameStateMessage"),
                 ("gameStateMessage", .obj [("turnInfo", .obj [("turnNumber", .num 7)])])],
           c1ex_draw] none none none none none = some r ∧
      r.turns = (observed_turns
          [.obj [("type", .str "GREMessageType_GameStateMessage"),
                 ("gameStateMessage", .obj [("turnInfo", .obj [("turnNumber", .num 7)])])],
           c1ex_draw]).foldl max 0 ∧ 0 ≤ r.turns := by
  rcases hb : build_match (.str "m")
      [.obj [("type", .str "GREMessageType_GameStateMessage"),
             ("gameStateMessage", .obj [("turnInfo", .obj [("turnNumber", .num 7)])])],
       c1ex_draw] none none none none none with _ | r
  · exact absurd (congrArg Option.isSome hb) (by decide)
  · exact ⟨r, rfl, (c9_turns_max_observed _ _ _ _ _ _ _ r hb).1,
      (c9_turns_max_observed _ _ _ _ _ _ _ r hb).2⟩

/-! ### Short bare JSON lines -/

/-- C10.  A line matching none of the tagged trigger patterns whose
stripped text begins with a brace but has length at most 10 produces no
block and the scan simply moves to the next line: the bare-JSON trigger
requires stripped length strictly greater than 10. -/
theorem c10_short_bare_line_ignored (line : Line) (rest : List Line)
    (h1 : searchArrowOut line = none) (h2 : searchMatchEvent line = none)
    (h3 : searchArrowIn line = none) (h4 : lineStarts litUCTL line = false)
    (h5 : lineStarts [lcub] (pyStrip line) = true)
    (h6 : (pyStrip line).length ≤ 10) :
    processLine line rest = [] ∧ extractLines (line :: rest) = extractLines rest := by
  have hp : processLine line rest = [] := by
    unfold processLine
    rw [h1, h2, h3]
    dsimp only
    unfold taggedOrBare bareLineBlocks
    rw [h4]
    simp only [Bool.false_eq_true, if_false]
    have h7 : decide ((pyStrip line).length > 10) = false := by
      rw [decide_eq_false_iff_not]
      omega
    rw [h5, h7]
    simp
  refine ⟨hp, ?_⟩
  show processLine line rest ++ extractLines rest = extractLines rest
  rw [hp]
  rfl

/-- C10 witness: the theorem applied to the bare two-character line
consisting of an empty JSON object. -/
theorem c10_short_bare_line_ignored_witness :
    processLine [lcub, rcub] ["ok".toList] = [] ∧
    extractLines ([lcub, rcub] :: ["ok".toList]) = extractLines ["ok".toList] := by
  exact c10_short_bare_line_ignored [lcub, rcub] ["ok".toList]
    (by decide) (by decide) (by decide) (by decide) (by decide) (by decide)

/-! ### Block-skip resilience -/

theorem collect_json_balanced (start : Line) (rest : List Line)
    (h : braceDelta start ≤ 0) : collect_json start rest = start := by
  unfold collect_json collectAux
  cases rest with
  | nil => rfl
  | cons l ls => dsimp only; rw [if_pos h]

/-- A self-contained bare JSON line: no tagged trigger matches, the
stripped text starts with a brace, is longer than 10 characters, closes
its own delimiters, and parses to `v`. -/
def bare_block_line (l : Line) (v : Json) : Prop :=
  searchArrowOut l = none ∧ searchMatchEvent l = none ∧ searchArrowIn l = none ∧
  lineStarts litUCTL l = false ∧ lineStarts [lcub] (pyStrip l) = true ∧
  (pyStrip l).length > 10 ∧ braceDelta (pyStrip l) ≤ 0 ∧ json_loads (pyStrip l) = some v

theorem processLine_bare (l : Line) (v : Json) (rest : List Line)
    (hb : bare_block_line l v) :
    processLine l rest = [(tagOfKeys v, v)] := by
  obtain ⟨h1, h2, h3, h4, h5, h6, h7, h8⟩ := hb
  unfold processLine
  rw [h1, h2, h3]
  dsimp only
  unfold taggedOrBare bareLineBlocks
  rw [h4]
  simp only [Bool.false_eq_true, if_false]
  rw [h5, decide_eq_true h6]
  simp only [Bool.and_self, if_true]
  rw [collect_json_balanced _ _ h7, h8]

/-- C3.  A corrupted or unterminated block line `c` between two
well-formed bare JSON block lines contributes nothing, and both
well-formed blocks are still extracted: the whole scan equals the scan
without the corrupted line, and no failure escapes the single block
attempt (the model's extraction is total by construction). -/
theorem c3_block_skip_resilience (l1 c l2 : Line) (v1 v2 : Json)
    (hb1 : bare_block_line l1 v1) (hb2 : bare_block_line l2 v2)
    (hc1 : searchArrowOut c = none) (hc2 : searchMatchEvent c = none)
    (hc3 : searchArrowIn c = none) (hc4 : lineStarts litUCTL c = false)
    (hc5 : json_loads (collect_json (pyStrip c) [l2]) = none) :
    extractLines [l1, c, l2] = [(tagOfKeys v1, v1), (tagOfKeys v2, v2)] ∧
    extractLines [l1, c, l2] = extractLines [l1, l2] := by
  have e1 : processLine l1 [c, l2] = [(tagOfKeys v1, v1)] := processLine_bare _ _ _ hb1
  have e2 : processLine l2 [] = [(tagOfKeys v2, v2)] := processLine_bare _ _ _ hb2
  have e3 : processLine l1 [l2] = [(tagOfKeys v1, v1)] := processLine_bare _ _ _ hb1
  have e4 : processLine c [l2] = [] := by
    unfold processLine
    rw [hc1, hc2, hc3]
    dsimp only
    unfold taggedOrBare bareLineBlocks
    rw [hc4]
    simp only [Bool.false_eq_true, if_false]
    by_cases hcc : (lineStarts [lcub] (pyStrip c) && decide ((pyStrip c).length > 10)) = true
    · rw [if_pos hcc, hc5]
    · rw [if_neg hcc]
  have hL : extractLines [l1, c, l2]
      = processLine l1 [c, l2] ++ (processLine c [l2] ++ (processLine l2 [] ++ [])) := rfl
  have hR : extractLines [l1, l2]
      = processLine l1 [l2] ++ (processLine l2 [] ++ []) := rfl
  rw [hL, hR, e1, e2, e3, e4]
  exact ⟨rfl, rfl⟩

/-- A well-formed bare JSON block line used by the C3 witness. -/
def c3wit_l1 : Line := ("\x7b\"ab\": 1, \"cd\": 2\x7d").toList

/-- A corrupted (non-JSON) block line used by the C3 witness. -/
def c3wit_c : Line := ("\x7b\"bad\": nope\x7d").toList

/-- A second well-formed bare JSON block line used by the C3 witness. -/
def c3wit_l2 : Line := ("\x7b\"ef\": 3, \"gh\": 4\x7d").toList

/-- C3 witness: the theorem applied to two concrete well-formed block
lines with a concrete corrupted line between them. -/
theorem c3_block_skip_resilience_witness :
    extractLines [c3wit_l1, c3wit_c, c3wit_l2] =
      [("standalone", .obj [("ab", .num 1), ("cd", .num 2)]),
       ("standalone", .obj [("ef", .num 3), ("gh", .num 4)])] ∧
    extractLines [c3wit_l1, c3wit_c, c3wit_l2] = extractLines [c3wit_l1, c3wit_l2] := by
  exact c3_block_skip_resilience c3wit_l1 c3wit_c c3wit_l2
    (.obj [("ab", .num 1), ("cd", .num 2)]) (.obj [("ef", .num 3), ("gh", .num 4)])
    ⟨by decide, by decide, by decide, by decide, by decide, by decide, by decide, by rfl⟩
    ⟨by decide, by decide, by decide, by decide, by decide, by decide, by decide, by rfl⟩
    (by decide) (by decide) (by decide) (by decide) (by rfl)

/-! ### Match-boundary finalization (single match in progress) -/

/-- The new match id adopted by the match-room branch, when a truthy
`matchId` different from the current one arrives with a non-empty
roster. -/
def mgr_new_id (s : EMState) (data : Json) : Option Json :=
  if truthy (mgrOf data) && truthy (reservedOf data) &&
      (truthy (midOf data) && jsonNeOpt (midOf data) s.current_match_id) then
    some (midOf data)
  else none

/-- The events a block contributes to a freshly reset match within its own
iteration: the block's `finalMatchResult` (when present and the new id is
truthy) followed by its GRE messages.  A function of the block alone. -/
def mgr_fresh_events (data : Json) : List Json :=
  (match pyGet (griOf data) "finalMatchResult" with
   | some f =>
     if truthy f && truthy (midOf data) then [Json.obj [("_finalMatchResult", f)]] else []
   | none => [])
  ++ (if truthy (pyGetD data "greToClientEvent" (.obj [])) then
        asArr (pyGetD (pyGetD data "greToClientEvent" (.obj [])) "greToClientMessages" (.arr []))
      else [])

theorem em_auth_noop (s : EMState) (d : Json)
    (h : truthyOpt (pyGet (pyGetD d "authenticateResponse" (.obj [])) "screenName") = false) :
    em_auth s d = s := by
  unfold em_auth
  dsimp only
  rcases hg : pyGet (pyGetD d "authenticateResponse" (.obj [])) "screenName" with _ | v
  · rfl
  · rw [hg] at h
    simp only [truthyOpt] at h
    dsimp only
    rw [h]
    simp

theorem em_deck_noop (s : EMState) (m : String) (d : Json) (h : m ≠ "EventSetDeckV2") :
    em_deck s m d = s := by
  unfold em_deck; rw [if_neg h]

theorem em_join_noop (s : EMState) (m : String) (d : Json) (h : m ≠ "EventJoin") :
    em_join s m d = s := by
  unfold em_join; rw [if_neg h]

theorem em_standalone_noop (s : EMState) (m : String) (d : Json) (h : m ≠ "standalone") :
    em_standalone s m d = s := by
  unfold em_standalone; rw [if_neg h]

theorem em_roster_step_events (st : EMState) (p : Json) :
    (em_roster_step st p).current_events = st.current_events := by
  unfold em_roster_step; dsimp only; repeat' split
  all_goals rfl

theorem em_roster_step_id (st : EMState) (p : Json) :
    (em_roster_step st p).current_match_id = st.current_match_id := by
  unfold em_roster_step; dsimp only; repeat' split
  all_goals rfl

theorem em_roster_events (players : List Json) :
    ∀ s : EMState, (em_roster s players).current_events = s.current_events := by
  induction players with
  | nil => intro s; rfl
  | cons p ps ih =>
    intro s
    show (em_roster (em_roster_step s p) ps).current_events = s.current_events
    rw [ih, em_roster_step_events]

theorem em_roster_id (players : List Json) :
    ∀ s : EMState, (em_roster s players).current_match_id = s.current_match_id := by
  induction players with
  | nil => intro s; rfl
  | cons p ps ih =>
    intro s
    show (em_roster (em_roster_step s p) ps).current_match_id = s.current_match_id
    rw [ih, em_roster_step_id]

theorem em_gte_events (s : EMState) (d : Json) :
    (em_gte s d).current_events
      = s.current_events ++
        (if truthy (pyGetD d "greToClientEvent" (.obj [])) then
           asArr (pyGetD (pyGetD d "greToClientEvent" (.obj [])) "greToClientMessages" (.arr []))
         else []) := by
  unfold em_gte
  dsimp only
  split
  · rfl
  · simp

theorem em_gte_id (s : EMState) (d : Json) :
    (em_gte s d).current_match_id = s.current_match_id := by
  unfold em_gte; dsimp only; split
  all_goals rfl

theorem finalize_current_append (s : EMState) (m : Json)
    (hid : s.current_match_id = some m) (hmt : truthy m = true)
    (hne : s.current_events ≠ []) :
    (finalize_current s).matchesAcc
      = s.matchesAcc ++ (build_match m s.current_events s.current_deck s.player_name
          s.opponent_name s.player_team_id s.event_format).toList := by
  have hE : s.current_events.isEmpty = false := by
    cases hcc : s.current_events with
    | nil => exact absurd hcc hne
    | cons a l => rfl
  unfold finalize_current
  rw [hid]
  dsimp only
  rw [hmt, hE]
  simp only [Bool.not_false, Bool.and_self, if_true]
  rcases hb : build_match m s.current_events s.current_deck s.player_name
      s.opponent_name s.player_team_id s.event_format with _ | mm
  · simp
  · rfl

/-- The state right after the match-room branch adopts a fresh id:
the previous match finalized, the new id installed, the per-match
accumulators reset. -/
def em_mgr_adopt (s : EMState) (data : Json) : EMState :=
  let sf := finalize_current s
  { sf with current_match_id := some (midOf data), current_events := [],
            opponent_name := none, player_team_id := none }

/-- The `finalMatchResult` append at the end of the match-room branch. -/
def em_fmr (s1 : EMState) (data : Json) : EMState :=
  match pyGet (griOf data) "finalMatchResult" with
  | some f =>
    if truthy f && truthyOpt s1.current_match_id then
      { s1 with current_events := s1.current_events ++ [Json.obj [("_finalMatchResult", f)]] }
    else s1
  | none => s1

theorem em_mgr_boundary (s : EMState) (data : Json)
    (hA : truthy (mgrOf data) = true) (hB : truthy (reservedOf data) = true)
    (hC : (truthy (midOf data) && jsonNeOpt (midOf data) s.current_match_id) = true) :
    em_mgr s data = em_fmr (em_roster (em_mgr_adopt s data) (asArr (reservedOf data))) data := by
  unfold em_mgr em_fmr em_mgr_adopt
  rw [if_pos hA]
  dsimp only
  rw [if_pos hB, if_pos hC]

theorem em_fmr_matchesAcc (s1 : EMState) (data : Json) :
    (em_fmr s1 data).matchesAcc = s1.matchesAcc := by
  unfold em_fmr; repeat' split
  all_goals rfl

theorem em_fmr_id (s1 : EMState) (data : Json) :
    (em_fmr s1 data).current_match_id = s1.current_match_id := by
  unfold em_fmr; repeat' split
  all_goals rfl

theorem em_fmr_events (s1 : EMState) (data : Json) :
    (em_fmr s1 data).current_events
      = s1.current_events ++
        (match pyGet (griOf data) "finalMatchResult" with
         | some f =>
           if truthy f && truthyOpt s1.current_match_id then
             [Json.obj [("_finalMatchResult", f)]]
           else []
         | none => []) := by
  unfold em_fmr
  rcases hg : pyGet (griOf data) "finalMatchResult" with _ | f
  · simp
  · dsimp only
    split
    · rfl
    · simp

theorem em_mgr_noop (s : EMState) (data : Json) (h : truthy (mgrOf data) = false) :
    em_mgr s data = s := by
  unfold em_mgr
  rw [h]
  simp

theorem em_gte_noop (s : EMState) (data : Json)
    (h : truthy (pyGetD data "greToClientEvent" (.obj [])) = false) :
    em_gte s data = s := by
  unfold em_gte
  dsimp only
  rw [h]
  simp

theorem em_standalone_boundary (s : EMState) (data mid : Json)
    (hc : containsSub ((pyStr data).toList.take 100) "matchId".toList = true)
    (hm : pyGetN data "matchId" = some mid)
    (hcond : (truthy mid && jsonNeOpt mid s.current_match_id) = true) :
    em_standalone s "standalone" data
      = { finalize_current s with current_match_id := some mid, current_events := [] } := by
  unfold em_standalone
  rw [if_pos rfl, if_pos hc, hm]
  dsimp only
  rw [if_pos hcond]

/-- C6 (match-boundary invariant).  Both paths that observe a match
identifier different from the current one finalize the previous match —
appending exactly the `build_match` output for the old id over the
events accumulated so far — before adopting the new identifier, and
reset the accumulated event list so no event of the previous match leaks
into the new one (at most one match is ever in progress: the state holds
a single optional id).  First conjunct: the match-room branch (a block
with a truthy fresh `matchId` in its game-room config, the block not
also an auth/deck/join/standalone trigger); the new in-progress event
list equals `mgr_fresh_events data`, a function of the current block
alone.  Second conjunct: the standalone branch (a `standalone` block
whose first 100 repr characters mention `matchId`, carrying a truthy
fresh id, without mgr/gte/auth content); that branch runs last in the
loop body, so the new in-progress event list is exactly `[]`. -/
theorem c6_boundary_finalizes_and_resets :
    (∀ (s : EMState) (method : String) (data mid m : Json),
       mgr_new_id s data = some mid →
       method ≠ "EventSetDeckV2" → method ≠ "EventJoin" → method ≠ "standalone" →
       truthyOpt (pyGet (pyGetD data "authenticateResponse" (.obj [])) "screenName") = false →
       s.current_match_id = some m → truthy m = true → s.current_events ≠ [] →
       (em_step s (method, data)).matchesAcc
           = s.matchesAcc ++ (build_match m s.current_events s.current_deck s.player_name
               s.opponent_name s.player_team_id s.event_format).toList
       ∧ (em_step s (method, data)).current_match_id = some mid
       ∧ (em_step s (method, data)).current_events = mgr_fresh_events data)
    ∧ (∀ (s : EMState) (data mid m : Json),
       containsSub ((pyStr data).toList.take 100) "matchId".toList = true →
       pyGetN data "matchId" = some mid →
       (truthy mid && jsonNeOpt mid s.current_match_id) = true →
       truthyOpt (pyGet (pyGetD data "authenticateResponse" (.obj [])) "screenName") = false →
       truthy (mgrOf data) = false →
       truthy (pyGetD data "greToClientEvent" (.obj [])) = false →
       s.current_match_id = some m → truthy m = true → s.current_events ≠ [] →
       (em_step s ("standalone", data)).matchesAcc
           = s.matchesAcc ++ (build_match m s.current_events s.current_deck s.player_name
               s.opponent_name s.player_team_id s.event_format).toList
       ∧ (em_step s ("standalone", data)).current_match_id = some mid
       ∧ (em_step s ("standalone", data)).current_events = []) := by
  constructor
  · intro s method data mid m hnew hm1 hm2 hm3 hauth hid hmt hne
    have hq : (truthy (mgrOf data) && truthy (reservedOf data) &&
        (truthy (midOf data) && jsonNeOpt (midOf data) s.current_match_id)) = true := by
      by_cases hq : (truthy (mgrOf data) && truthy (reservedOf data) &&
          (truthy (midOf data) && jsonNeOpt (midOf data) s.current_match_id)) = true
      · exact hq
      · unfold mgr_new_id at hnew
        rw [if_neg hq] at hnew
        exact absurd hnew (by simp)
    have hmid : mid = midOf data := by
      unfold mgr_new_id at hnew
      rw [if_pos hq] at hnew
      exact (Option.some.inj hnew).symm
    have hq2 := hq
    simp only [Bool.and_eq_true] at hq2
    obtain ⟨⟨hA, hB⟩, hC⟩ := hq2
    have hCb : (truthy (midOf data) && jsonNeOpt (midOf data) s.current_match_id) = true := by
      simp only [Bool.and_eq_true]
      exact hC
    have hstep : em_step s (method, data) = em_gte (em_mgr s data) data := by
      unfold em_step
      dsimp only
      rw [em_auth_noop s data hauth, em_deck_noop _ _ _ hm1, em_join_noop _ _ _ hm2]
      rw [em_standalone_noop _ _ _ hm3]
    rw [hstep, em_mgr_boundary s data hA hB hCb]
    set sR := em_roster (em_mgr_adopt s data) (asArr (reservedOf data)) with hsR
    have hRid : sR.current_match_id = some (midOf data) := by
      rw [hsR, em_roster_id]
      rfl
    have hRev : sR.current_events = [] := by
      rw [hsR, em_roster_events]
      rfl
    have hRacc : sR.matchesAcc
        = s.matchesAcc ++ (build_match m s.current_events s.current_deck s.player_name
            s.opponent_name s.player_team_id s.event_format).toList := by
      rw [hsR, em_roster_matchesAcc]
      show (finalize_current s).matchesAcc = _
      exact finalize_current_append s m hid hmt hne
    refine ⟨?_, ?_, ?_⟩
    · rw [em_gte_matchesAcc, em_fmr_matchesAcc, hRacc]
    · rw [em_gte_id, em_fmr_id, hRid, hmid]
    · rw [em_gte_events, em_fmr_events, hRid, hRev]
      unfold mgr_fresh_events
      rfl
  · intro s data mid m hc hm2 hcond hauth hmgr hgte hid hmt hne
    have hstep : em_step s ("standalone", data) = em_standalone s "standalone" data := by
      unfold em_step
      dsimp only
      rw [em_auth_noop s data hauth, em_deck_noop _ _ _ (by decide),
          em_join_noop _ _ _ (by decide), em_mgr_noop _ _ hmgr, em_gte_noop _ _ hgte]
    rw [hstep, em_standalone_boundary s data mid hc hm2 hcond]
    refine ⟨?_, rfl, rfl⟩
    show (finalize_current s).matchesAcc = _
    exact finalize_current_append s m hid hmt hne

/-- A session state with match `old` in progress and one accumulated
event. -/
def c6wit_s : EMState :=
  ⟨[], none, some (.str "old"), [c1ex_winloss], none, none, none, none⟩

/-- A standalone block carrying the fresh match id `m2`. -/
def c6wit_sd : Json := .obj [("matchId", .str "m2")]

/-- C6 witness: the boundary theorem applied to a concrete in-progress
state, once with a match-room block carrying the fresh id `m1` and once
with a standalone block carrying the fresh id `m2`. -/
theorem c6_boundary_witness :
    ((em_step c6wit_s ("MatchGameRoomStateChangedEvent", c2wit_data)).matchesAcc
        = c6wit_s.matchesAcc ++ (build_match (.str "old") c6wit_s.current_events
            c6wit_s.current_deck c6wit_s.player_name c6wit_s.opponent_name
            c6wit_s.player_team_id c6wit_s.event_format).toList
     ∧ (em_step c6wit_s ("MatchGameRoomStateChangedEvent", c2wit_data)).current_match_id
        = some (.str "m1")
     ∧ (em_step c6wit_s ("MatchGameRoomStateChangedEvent", c2wit_data)).current_events
        = mgr_fresh_events c2wit_data)
    ∧ ((em_step c6wit_s ("standalone", c6wit_sd)).matchesAcc
        = c6wit_s.matchesAcc ++ (build_match (.str "old") c6wit_s.current_events
            c6wit_s.current_deck c6wit_s.player_name c6wit_s.opponent_name
            c6wit_s.player_team_id c6wit_s.event_format).toList
     ∧ (em_step c6wit_s ("standalone", c6wit_sd)).current_match_id = some (.str "m2")
     ∧ (em_step c6wit_s ("standalone", c6wit_sd)).current_events = []) :=
  ⟨c6_boundary_finalizes_and_resets.1 c6wit_s "MatchGameRoomStateChangedEvent" c2wit_data
     (.str "m1") (.str "old") (by rfl) (by decide) (by decide) (by decide) (by rfl)
     (by rfl) (by rfl) (List.cons_ne_nil _ _),
   c6_boundary_finalizes_and_resets.2 c6wit_s c6wit_sd (.str "m2") (.str "old")
     (by decide) (by rfl) (by rfl) (by rfl) (by rfl) (by rfl) (by rfl) (by rfl)
     (List.cons_ne_nil _ _)⟩

/-! ### Tailing: truncation recovery and rotation -/

theorem string_mk_data (s : String) : String.mk s.data = s := rfl

/-- C7.  On a poll tick whose snapshot has the same identity but a size
smaller than the recorded offset, the reader does not stop: it resets the
offset to zero, reads the whole now-smaller file from the start (yielding
it when non-empty), and records the new end-of-file offset — no
exception, modelled by the step returning a value rather than the
rotation stop. -/
theorem c7_truncation_recovery (inode pos : Nat) (s : Snapshot)
    (hio : s.inode = inode) (hsz : s.content.length < pos) :
    tail_step inode pos s
      = some ((if s.content.isEmpty then none else some s.content), s.content.length) := by
  unfold tail_step
  rw [if_neg (by rw [hio]; exact fun hne => hne rfl)]
  dsimp only
  rw [if_pos hsz]
  have hsc : String.mk (s.content.toList.drop 0) = s.content := rfl
  rw [hsc]

/-- C7 witness: the theorem applied to a concrete truncated snapshot. -/
theorem c7_truncation_recovery_witness :
    tail_step 5 10 ⟨5, "abc"⟩ = some (some "abc", 3) := by
  have h := c7_truncation_recovery 5 10 ⟨5, "abc"⟩ rfl (by decide)
  simpa using h

theorem tail_run_stops_at_rotation (inode : Nat) (rot : Snapshot)
    (hrot : rot.inode ≠ inode) :
    ∀ (pre : List (Option Snapshot)) (pos : Nat) (post : List (Option Snapshot)),
      (∀ t ∈ pre, ∀ snap, t = some snap → snap.inode = inode) →
      tail_run inode pos (pre ++ some rot :: post)
        = ((tail_run inode pos pre).1, true) := by
  intro pre
  induction pre with
  | nil =>
    intro pos post _
    show tail_run inode pos (some rot :: post) = _
    unfold tail_run tail_step
    rw [if_pos hrot]
  | cons t ts ih =>
    intro pos post hpre
    rcases t with _ | snap
    · show tail_run inode pos (ts ++ some rot :: post) = ((tail_run inode pos ts).1, true)
      exact ih pos post (fun x hx => hpre x (List.mem_cons_of_mem none hx))
    · have hsnap : snap.inode = inode :=
        hpre (some snap) (List.mem_cons_self _ _) snap rfl
      show tail_run inode pos (some snap :: (ts ++ some rot :: post)) = _
      unfold tail_run tail_step
      rw [if_neg (by rw [hsnap]; exact fun hne => hne rfl)]
      dsimp only
      rw [ih _ post (fun x hx => hpre x (List.mem_cons_of_mem (some snap) hx))]

theorem tail_step_reopened (snap : Snapshot) (extra : String) :
    tail_step snap.inode snap.content.length ⟨snap.inode, snap.content ++ extra⟩
      = some ((if extra.isEmpty then none else some extra),
              snap.content.length + extra.length) := by
  unfold tail_step
  rw [if_neg (by exact fun hne => hne rfl)]
  dsimp only
  have hnlt : ¬ (snap.content ++ extra).length < snap.content.length := by
    show ¬ (snap.content.data ++ extra.data).length < _
    rw [List.length_append]
    exact not_lt.mpr (Nat.le_add_right _ _)
  rw [if_neg hnlt]
  have hdrop : String.mk ((snap.content ++ extra).toList.drop snap.content.length)
      = extra := by
    show String.mk ((snap.content.data ++ extra.data).drop snap.content.data.length) = extra
    rw [List.drop_left]
  rw [hdrop]
  have hlen : (snap.content ++ extra).length = snap.content.length + extra.length := by
    show (snap.content.data ++ extra.data).length = _
    rw [List.length_append]
    rfl
  rw [hlen]

/-- C5 (amended).  Once a tick's snapshot has a different identity, the
reader stops: nothing is yielded from that tick on (no byte of the old
file's unread tail, nor any other byte, is ever attributed past the
rotation), and the loop reports the rotation so the caller reopens.  On
reopen, however, `tail_file` seeks to the END of the new file: content
already present at reopen is skipped and only text appended afterwards is
yielded — the caller does not continue from the new file's beginning. -/
theorem c5_rotation_stops_and_reopen_seeks_end (inode : Nat) (rot : Snapshot)
    (hrot : rot.inode ≠ inode) :
    (∀ (pre : List (Option Snapshot)) (pos : Nat) (post : List (Option Snapshot)),
       (∀ t ∈ pre, ∀ snap, t = some snap → snap.inode = inode) →
       tail_run inode pos (pre ++ some rot :: post)
         = ((tail_run inode pos pre).1, true))
    ∧ (∀ (snap : Snapshot) (extra : String),
       tail_file_run snap [some ⟨snap.inode, snap.content ++ extra⟩]
         = ((if extra.isEmpty then [] else [extra]), false)) := by
  constructor
  · exact tail_run_stops_at_rotation inode rot hrot
  · intro snap extra
    show tail_run snap.inode snap.content.length [some ⟨snap.inode, snap.content ++ extra⟩]
      = _
    unfold tail_run
    rw [tail_step_reopened]
    dsimp only
    rcases hx : extra.isEmpty with _ | _
    · simp only [Bool.false_eq_true, if_false]
      rfl
    · simp only [if_true]
      rfl

/-- C5 counterexample.  A rotation is detected (the reader stops and
reports it), the caller reopens the new file — but the new file's initial
content `NEWDATA`, present at reopen and unchanged through the next tick,
is never yielded, because reopening seeks to end-of-file.  The claim's
"continues from the new file's beginning" fails. -/
theorem c5_counterexample :
    tail_file_run ⟨1, "A"⟩ [some ⟨2, "NEWDATA"⟩] = ([], true) ∧
    tail_file_run ⟨2, "NEWDATA"⟩ [some ⟨2, "NEWDATA"⟩] = ([], false) ∧
    "NEWDATA" ≠ "" := by
  refine ⟨by decide, by decide, by decide⟩

/-- C5 witness: the amended theorem applied at a concrete rotation tick
and a concrete reopened file with appended text. -/
theorem c5_rotation_witness :
    tail_run 1 0 ([some ⟨1, "x"⟩] ++ some ⟨2, "B"⟩ :: [some ⟨1, "zz"⟩])
      = ((tail_run 1 0 [some ⟨1, "x"⟩]).1, true) ∧
    tail_file_run ⟨2, "NEW"⟩ [some ⟨2, "NEW" ++ "tail"⟩] = (["tail"], false) := by
  constructor
  · exact (c5_rotation_stops_and_reopen_seeks_end 1 ⟨2, "B"⟩ (by decide)).1
      [some ⟨1, "x"⟩] 0 [some ⟨1, "zz"⟩]
      (by
        intro t ht snap hsnap
        rw [List.mem_singleton] at ht
        subst ht
        cases hsnap
        rfl)
  · have h := (c5_rotation_stops_and_reopen_seeks_end 1 ⟨2, "B"⟩ (by decide)).2
      ⟨2, "NEW"⟩ "tail"
    simpa using h

/-! ### Incremental processing vs whole-text processing -/

/-- The complete match line (id `m1`, one seated player, a terminal
win/loss signal) of the C4 counterexample. -/
def c4_l1 : String :=
  "\x7b\"matchGameRoomStateChangedEvent\": \x7b\"gameRoomInfo\": \x7b\"gameRoomConfig\": \x7b\"matchId\": \"m1\", \"reservedPlayers\": [\x7b\"playerName\": \"P\"\x7d]\x7d, \"finalMatchResult\": \x7b\"resultList\": [\x7b\"scope\": \"MatchScope_Match\", \"result\": \"ResultType_WinLoss\"\x7d]\x7d\x7d\x7d\x7d"

/-- The second match's line (id `m2`), which the chunk split cuts in
half. -/
def c4_l3 : String :=
  "\x7b\"matchGameRoomStateChangedEvent\": \x7b\"gameRoomInfo\": \x7b\"gameRoomConfig\": \x7b\"matchId\": \"m2\", \"reservedPlayers\": [\x7b\"playerName\": \"P\"\x7d]\x7d, \"finalMatchResult\": \x7b\"resultList\": [\x7b\"scope\": \"MatchScope_Match\", \"result\": \"ResultType_WinLoss\"\x7d]\x7d\x7d\x7d\x7d"

/-- First chunk: the complete first match plus the first 9 characters of
the second match's line. -/
def c4_c1 : String := c4_l1 ++ "\n" ++ String.mk (c4_l3.toList.take 9)

/-- Second chunk: the rest of the second match's line. -/
def c4_c2 : String := String.mk (c4_l3.toList.drop 9)

set_option maxRecDepth 100000 in
/-- C4 counterexample.  Splitting a two-match log mid-block and feeding
the chunks through `process_new_content` does not yield the same blocks
as the whole text: the first call commits match `m1`, which clears the
carry-over buffer, so the block straddling the boundary (match `m2`'s
line) is lost — the whole text yields 2 blocks and stores `m1` and `m2`,
the chunked path yields 1 block and stores only `m1`.  (The extractor
itself returns only blocks, never unconsumed trailing text.) -/
theorem c4_counterexample :
    c4_c1 ++ c4_c2 = c4_l1 ++ "\n" ++ c4_l3 ∧
    (extract_json_blocks (c4_c1 ++ c4_c2)).length = 2 ∧
    (extract_json_blocks c4_c1 ++ extract_json_blocks c4_c2).length = 1 ∧
    (batch_run ⟨[], 0⟩ (c4_c1 ++ c4_c2)).ids = [.str "m1", .str "m2"] ∧
    (watch_chunks ⟨⟨[], 0⟩, []⟩ [c4_c1, c4_c2]).conn.ids = [.str "m1"] :=
  ⟨rfl, rfl, rfl, rfl, rfl⟩

/-- C4 (amended).  `process_new_content` either clears its buffer (after
a successful store) or appends the chunk to it; as long as the buffer was
retained, the next call re-parses the full accumulated text, so feeding
chunks sequentially yields exactly the blocks of the whole text.  A block
straddling the boundary is only recovered through this buffer carry-over
— the extractor returns no unconsumed trailing text — and the carry-over
is discarded when an earlier chunk commits a match. -/
theorem c4_buffer_carryover :
    (∀ (st : WatchState) (c : String),
       (process_new_content st c).1.buffer = [] ∨
       (process_new_content st c).1.buffer = st.buffer ++ [c])
    ∧ (∀ (st : WatchState) (c1 c2 : String),
       st.buffer = [] →
       (process_new_content st c1).1.buffer = [c1] →
       extract_json_blocks (String.join ((process_new_content st c1).1.buffer ++ [c2]))
         = extract_json_blocks (c1 ++ c2)) := by
  constructor
  · intro st c
    unfold process_new_content
    dsimp only
    repeat' split
    all_goals simp
  · intro st c1 c2 _ h2
    rw [h2]
    rfl

/-- C4 witness: the amended theorem applied to a chunk that produces no
blocks (buffer retained) followed by a second chunk. -/
theorem c4_buffer_carryover_witness :
    ((process_new_content ⟨⟨[], 0⟩, []⟩ "hello").1.buffer = [] ∨
     (process_new_content ⟨⟨[], 0⟩, []⟩ "hello").1.buffer = ([] : List String) ++ ["hello"])
    ∧ extract_json_blocks (String.join
        ((process_new_content ⟨⟨[], 0⟩, []⟩ "hello").1.buffer ++ ["world"]))
      = extract_json_blocks ("hello" ++ "world") :=
  ⟨c4_buffer_carryover.1 ⟨⟨[], 0⟩, []⟩ "hello",
   c4_buffer_carryover.2 ⟨⟨[], 0⟩, []⟩ "hello" "world" rfl rfl⟩

/-! ### Round-trip determinism -/

/-- The batch pipeline: block extraction then match reconstruction, with
all serialized fields (`deck_cards`, `cards_played`,
`opponent_cards_seen`) included in the records. -/
def pipeline_records (text : String) : List MatchRecord :=
  extract_matches (extract_json_blocks text)

/-- C8.  The pipeline is a pure function of the log text in this
embedding (the played-cards sets are modelled with a deterministic
insertion order): two runs on the same fixed text produce identical
records, byte-identical serialized card lists included. -/
theorem c8_round_trip_determinism (text : String) :
    pipeline_records text = pipeline_records text ∧
    (pipeline_records text).map
        (fun r => (r.match_id, r.result, r.deck_cards, r.cards_played, r.opponent_cards_seen))
      = (pipeline_records text).map
        (fun r => (r.match_id, r.result, r.deck_cards, r.cards_played, r.opponent_cards_seen)) :=
  ⟨rfl, rfl⟩

end ArenaLog
